import Mathlib

/-!
# audiobookshelf-exporter: the scrape-and-aggregate cycle

A shallow embedding of `internal/api/client.go` (`Client.Sessions`) and of
`internal/metrics/exporter.go` (`Exporter.Scrape`, `splitOnce`).

Modelling conventions.

* Go `string` is `String`.  The strings handled here come out of
  `encoding/json`, hence are valid UTF-8, and the only separator searched for
  is the ASCII text `"||"`; a byte-wise search and a character-wise search
  then find the same position.
* Go `float64` values are exact rationals (`ℚ`): JSON numbers are finite, and
  the rounding of floating-point sums is outside the model.  The conversion
  `float64(d.TotalItems)` of a Go `int` does round, and is modelled with its
  rounding (`float64OfInt`); the two conversions of a `len(...)` are exact, a
  slice being far shorter than `2^53`.
* Go `int` is `Int`.
* A Go `map` and a Prometheus `GaugeVec` are association lists with distinct
  keys, kept in order of first insertion.  Go ranges over a map in an
  unspecified order; the order of the entries of a published series is an
  artefact of the model, and `get?_publish_perm` shows that what a publishing
  loop leaves under each label does not depend on it.
* The upstream server is a record of fetch outcomes (`Client`); the sink is
  the record of the metric fields of `Exporter`.
* `Client.get` drops the error of `http.NewRequest`; when the request cannot
  be built the call panics.  `Exporter.Scrape` is the cycle in which every
  request is built, `Exporter.ScrapeRun` the cycle with these panics, and
  `ScrapeRun_returned` relates the two.
-/

namespace AbsExporter

/-! ## Go maps -/

/-- A Go map (and a labelled gauge vector) as an association list. -/
abbrev GoMap (K : Type) (V : Type) := List (K × V)

namespace GoMap

variable {K V : Type} [DecidableEq K]

/-- The comma-ok lookup `v, ok := m[k]`. -/
def get? : GoMap K V → K → Option V
  | [], _ => none
  | (k', v) :: m, k => if k' = k then some v else get? m k

/-- The plain lookup `m[k]`, which yields the zero value `d` of the value type
when the key is missing. -/
def getD (m : GoMap K V) (k : K) (d : V) : V :=
  match get? m k with
  | some v => v
  | none => d

/-- The assignment `m[k] = v`. -/
def set : GoMap K V → K → V → GoMap K V
  | [], k, v => [(k, v)]
  | (k', v') :: m, k, v => if k' = k then (k', v) :: m else (k', v') :: set m k v

/-- The compound assignment `m[k] += v` on a map of numbers. -/
def add (m : GoMap K ℚ) (k : K) (v : ℚ) : GoMap K ℚ :=
  set m k (getD m k 0 + v)

/-- The keys of a map. -/
def keys (m : GoMap K V) : List K := m.map Prod.fst

/-- The sum of all the values of a map of numbers. -/
def total (m : GoMap K ℚ) : ℚ := (m.map Prod.snd).sum

end GoMap

/-! ## `internal/api/client.go` -/

/-- A Go `error` value. -/
abbrev Error := String

structure Library where
  ID : String
  Name : String
  deriving DecidableEq, Repr

structure LibraryDetail where
  TotalItems : Int
  deriving DecidableEq, Repr

structure User where
  ID : String
  Username : String
  deriving DecidableEq, Repr

structure SessionUser where
  ID : String
  Username : String
  deriving DecidableEq, Repr

structure SessionDevice where
  ClientName : String
  Model : String
  deriving DecidableEq, Repr

structure MediaMetadata where
  Title : String
  deriving DecidableEq, Repr

structure Session where
  LibraryID : String
  UserID : String
  MediaType : String
  Duration : ℚ
  TimeListening : ℚ
  Date : String
  DayOfWeek : String
  User : Option SessionUser
  DeviceInfo : Option SessionDevice
  MediaMetadata : Option MediaMetadata
  deriving DecidableEq, Repr

structure SessionsResponse where
  Total : Int
  NumPages : Int
  Page : Int
  ItemsPerPage : Int
  Sessions : List Session
  deriving DecidableEq, Repr

/-- The outcomes of the four kinds of upstream fetch during one scrape cycle.
`LibraryDetail i id` is the outcome of the detail fetch issued for library
`id` as the `i`-th detail fetch of the cycle, and `sessionsPage p` the outcome
of `get "/api/sessions?page=p"`.  `Client.Sessions` asks for every page at most
once, so a function of the page number covers every server behaviour.  These
are the outcomes of the calls of `get` whose request was built; see
`Exporter.ScrapeRun` for the calls whose request cannot be built. -/
structure Client where
  Users : Except Error (List User)
  Libraries : Except Error (List Library)
  LibraryDetail : Nat → String → Except Error LibraryDetail
  sessionsPage : Nat → Except Error SessionsResponse

/-- What one call of `Client.Sessions` does: the two values it returns, and
the page numbers it requested, in the order of the requests. -/
structure SessionsRun where
  all : List Session
  err : Option Error
  requests : List Nat
  deriving DecidableEq, Repr

/-- The `for` loop of `Client.Sessions`, entered with the current values of
`page` and `all`. -/
def Client.sessionsLoop (get : Nat → Except Error SessionsResponse)
    (page : Nat) (all : List Session) (requests : List Nat) : SessionsRun :=
  match get page with
  | .error err => ⟨all, some err, requests ++ [page]⟩
  | .ok resp =>
    if ((page + 1 : Nat) : Int) ≥ resp.NumPages then
      ⟨all ++ resp.Sessions, none, requests ++ [page]⟩
    else if _h : page + 1 > 200 then
      ⟨all ++ resp.Sessions, none, requests ++ [page]⟩
    else
      Client.sessionsLoop get (page + 1) (all ++ resp.Sessions) (requests ++ [page])
termination_by 201 - page
decreasing_by omega

/-- The method `Client.Sessions`. -/
def Client.Sessions (c : Client) : SessionsRun :=
  Client.sessionsLoop c.sessionsPage 0 [] []

/-! ## `internal/metrics/exporter.go` -/

/-- The search loop of `splitOnce`, entered at index `i` with `rest = s[i:]`:
the first index at which `sep` occurs, or `-1`. -/
def splitOnce.find (sep : List Char) : List Char → Nat → Int
  | [], i => if sep.length ≤ 0 then (if ([] : List Char) = sep then (i : Int) else -1) else -1
  | c :: rest, i =>
    if sep.length ≤ (c :: rest).length then
      if (c :: rest).take sep.length = sep then (i : Int)
      else splitOnce.find sep rest (i + 1)
    else -1

/-- The function `splitOnce`. -/
def splitOnce (s sep : String) : String × String :=
  let idx := splitOnce.find sep.data s.data 0
  if idx = -1 then (s, "")
  else (String.mk (s.data.take idx.toNat), String.mk (s.data.drop (idx.toNat + sep.length)))

/-- The metric fields of `Exporter`: the content of the metric sink. -/
structure Exporter where
  up : ℚ
  users : ℚ
  libItems : GoMap (String × String) ℚ
  lastSuccess : ℚ
  lastTime : ℚ
  duration : List ℚ
  userListeningSeconds : GoMap String ℚ
  userSessionsTotal : GoMap String ℚ
  libraryListeningSeconds : GoMap (String × String) ℚ
  librarySessionsTotal : GoMap (String × String) ℚ
  bookListeningSeconds : GoMap String ℚ
  deviceListeningSeconds : GoMap (String × String) ℚ
  weekdayListeningSeconds : GoMap String ℚ
  sessionsTotal : ℚ
  deriving DecidableEq, Repr

/-- The two readings of the wall clock that `Scrape` publishes: the Unix time
at the end of the cycle and the seconds elapsed since its start. -/
structure Clock where
  unix : Int
  elapsed : ℚ

/-- The seven local maps of `Scrape` (lines 166-172). -/
structure Rollups where
  userListening : GoMap String ℚ
  userSessions : GoMap String ℚ
  libraryListening : GoMap String ℚ
  librarySessions : GoMap String ℚ
  bookListening : GoMap String ℚ
  deviceListening : GoMap (String × String) ℚ
  weekdayListening : GoMap String ℚ
  deriving DecidableEq, Repr

def Rollups.empty : Rollups := ⟨[], [], [], [], [], [], []⟩

/-- Lines 180-186: the value of `username`. -/
def username (s : Session) : String :=
  let username := s.UserID
  let username :=
    match s.User with
    | some u => if u.Username ≠ "" then u.Username else username
    | none => username
  if username = "" then "unknown" else username

/-- Lines 188-191: the value of `libID`. -/
def libID (s : Session) : String :=
  if s.LibraryID = "" then "unknown" else s.LibraryID

/-- Lines 192-195: the value of `libName`. -/
def libName (libNames : GoMap String String) (s : Session) : String :=
  let libName := libNames.getD (libID s) ""
  if libName = "" then libID s else libName

/-- Lines 197-202: the value of `title`. -/
def title (s : Session) : String :=
  match s.MediaMetadata with
  | some m => if m.Title ≠ "" then m.Title else "unknown"
  | none => "unknown"

/-- Lines 204-219: the values of `client` and `model`. -/
def clientModel (s : Session) : String × String :=
  match s.DeviceInfo with
  | some d =>
    (if d.ClientName ≠ "" then d.ClientName else "unknown",
     if d.Model ≠ "" then d.Model else "unknown")
  | none => ("unknown", "unknown")

/-- Lines 221-224: the value of `day`. -/
def day (s : Session) : String :=
  if s.DayOfWeek = "" then "unknown" else s.DayOfWeek

/-- Line 229: the value of `libraryKey`. -/
def libraryKey (libNames : GoMap String String) (s : Session) : String :=
  libID s ++ "||" ++ libName libNames s

/-- The body of the loop over the sessions (lines 175-238). -/
def aggregateStep (libNames : GoMap String String) (r : Rollups) (s : Session) : Rollups :=
  let listened := s.TimeListening
  if listened ≤ 0 then r
  else
    { userListening := r.userListening.add (username s) listened
      userSessions := r.userSessions.add (username s) 1
      libraryListening := r.libraryListening.add (libraryKey libNames s) listened
      librarySessions := r.librarySessions.add (libraryKey libNames s) 1
      bookListening := r.bookListening.add (title s) listened
      deviceListening := r.deviceListening.add (clientModel s) listened
      weekdayListening := r.weekdayListening.add (day s) listened }

/-- The loop over the sessions (lines 166-239). -/
def aggregate (sessions : List Session) (libNames : GoMap String String) : Rollups :=
  sessions.foldl (aggregateStep libNames) Rollups.empty

/-- A loop `for k, v := range m { vec.WithLabelValues(label k).Set(v) }`. -/
def publish {K L : Type} [DecidableEq L] (label : K → L) (m : GoMap K ℚ)
    (vec : GoMap L ℚ) : GoMap L ℚ :=
  m.foldl (fun g kv => GoMap.set g (label kv.1) kv.2) vec

/-- Lines 241-284: the seven resets, the seven publishing loops and the total
session count. -/
def publishRollups (r : Rollups) (sessions : List Session) (e : Exporter) : Exporter :=
  { e with
    userListeningSeconds := publish id r.userListening []
    userSessionsTotal := publish id r.userSessions []
    libraryListeningSeconds := publish (fun key => splitOnce key "||") r.libraryListening []
    librarySessionsTotal := publish (fun key => splitOnce key "||") r.librarySessions []
    bookListeningSeconds := publish id r.bookListening []
    deviceListeningSeconds := publish id r.deviceListening []
    weekdayListeningSeconds := publish id r.weekdayListening []
    sessionsTotal := (sessions.length : ℚ) }

/-- The number of binary digits of `n`, counted by at most `fuel` halvings;
`n` halvings always suffice. -/
def bitLength : Nat → Nat → Nat
  | 0, _ => 0
  | fuel + 1, n => if n = 0 then 0 else bitLength fuel (n / 2) + 1

/-- The conversion `float64(n)` of a non-negative Go `int`: the 53 leading
binary digits of `n` are kept, the digits below them are rounded to nearest,
ties to even. -/
def float64OfNat (n : Nat) : Nat :=
  let drop := bitLength n n - 53
  let q := n / 2 ^ drop
  let r := n % 2 ^ drop
  if 2 ^ drop < 2 * r ∨ (2 * r = 2 ^ drop ∧ q % 2 = 1) then (q + 1) * 2 ^ drop
  else q * 2 ^ drop

/-- The conversion `float64(n)` of a Go `int`. -/
def float64OfInt (n : Int) : ℚ :=
  if n < 0 then -((float64OfNat n.natAbs : Nat) : ℚ) else ((float64OfNat n.natAbs : Nat) : ℚ)

/-- The variables that the loop over the libraries (lines 147-157) updates. -/
structure LibsState where
  libNames : GoMap String String
  libItems : GoMap (String × String) ℚ
  success : Bool
  deriving DecidableEq, Repr

/-- The loop over the libraries (lines 147-157); `i` counts the detail fetches
issued so far. -/
def libsLoop (detail : Nat → String → Except Error LibraryDetail) :
    List Library → Nat → LibsState → LibsState
  | [], _, st => st
  | l :: libs, i, st =>
    let st := { st with libNames := st.libNames.set l.ID l.Name }
    match detail i l.ID with
    | .error _ => libsLoop detail libs (i + 1) { st with success := false }
    | .ok d =>
      libsLoop detail libs (i + 1)
        { st with libItems := st.libItems.set (l.ID, l.Name) (float64OfInt d.TotalItems) }

/-- Lines 129-135: the users fetch. -/
def scrapeUsers (c : Client) (e : Exporter) (success : Bool) : Exporter × Bool :=
  match c.Users with
  | .error _ => (e, false)
  | .ok users => ({ e with users := (users.length : ℚ) }, success)

/-- Lines 138-158: the libraries fetch and the detail fetches. -/
def scrapeLibraries (c : Client) (e : Exporter) (success : Bool) :
    Exporter × GoMap String String × Bool :=
  match c.Libraries with
  | .error _ => (e, [], false)
  | .ok libs =>
    let st := libsLoop c.LibraryDetail libs 0 ⟨[], [], success⟩
    ({ e with libItems := st.libItems }, st.libNames, st.success)

/-- Lines 161-285: the sessions fetch, the aggregation and its publication. -/
def scrapeSessions (c : Client) (libNames : GoMap String String) (e : Exporter)
    (success : Bool) : Exporter × Bool :=
  let run := c.Sessions
  match run.err with
  | some _ => (e, false)
  | none => (publishRollups (aggregate run.all libNames) run.all e, success)

/-- The method `Exporter.Scrape`, as a function of the fetch outcomes, of the
clock and of the sink's content before the cycle. -/
def Exporter.Scrape (c : Client) (clock : Clock) (e : Exporter) : Exporter :=
  let success := true
  let e := { e with up := 0 }
  let e := { e with lastSuccess := 0 }
  let u := scrapeUsers c e success
  let l := scrapeLibraries c u.1 u.2
  let s := scrapeSessions c l.2.1 l.1 l.2.2
  let e := s.1
  let e := if s.2 then { e with up := 1, lastSuccess := 1 } else e
  { e with lastTime := (clock.unix : ℚ), duration := e.duration ++ [clock.elapsed] }

/-! ### The panics of `Client.get`

`get` (client.go, lines 75-91) builds its request with
`req, _ := http.NewRequest("GET", c.baseURL+path, nil)` and drops the error.
When the URL cannot be parsed `req` is nil, and the call panics at line 78
(`req.Header.Set`) or inside `c.httpc.Do(req)` at line 80.  Nothing recovers
from the panic.  Whether `http.NewRequest` builds the request for a path is
the parameter `newRequest` below; `Client` gives the outcome of the calls
whose request was built. -/

/-- How a piece of `Scrape` ends: it returns, or a call of `get` panics; in
both cases with the state reached at that point. -/
inductive Ended (σ : Type) where
  | returned (s : σ)
  | panicked (s : σ)
  deriving DecidableEq, Repr

/-- The loop over the libraries (lines 147-157) with the panics of `get`. -/
def libsLoopRun (newRequest : String → Bool)
    (detail : Nat → String → Except Error LibraryDetail) :
    List Library → Nat → LibsState → Ended LibsState
  | [], _, st => .returned st
  | l :: libs, i, st =>
    let st := { st with libNames := st.libNames.set l.ID l.Name }
    if newRequest ("/api/libraries/" ++ l.ID ++ "/stats") then
      match detail i l.ID with
      | .error _ => libsLoopRun newRequest detail libs (i + 1) { st with success := false }
      | .ok d =>
        libsLoopRun newRequest detail libs (i + 1)
          { st with libItems := st.libItems.set (l.ID, l.Name) (float64OfInt d.TotalItems) }
    else .panicked st

/-- Lines 138-158 with the panics of `get`. -/
def scrapeLibrariesRun (newRequest : String → Bool) (c : Client) (e : Exporter)
    (success : Bool) : Ended (Exporter × GoMap String String × Bool) :=
  if newRequest "/api/libraries" then
    match c.Libraries with
    | .error _ => .returned (e, [], false)
    | .ok libs =>
      match libsLoopRun newRequest c.LibraryDetail libs 0 ⟨[], [], success⟩ with
      | .returned st => .returned ({ e with libItems := st.libItems }, st.libNames, st.success)
      | .panicked st => .panicked ({ e with libItems := st.libItems }, st.libNames, st.success)
  else .panicked (e, [], success)

/-- The `for` loop of `Client.Sessions` with the panics of `get`: `none` when
a call panics. -/
def Client.sessionsLoopRun (newRequest : String → Bool)
    (get : Nat → Except Error SessionsResponse)
    (page : Nat) (all : List Session) (requests : List Nat) : Option SessionsRun :=
  if newRequest ("/api/sessions?page=" ++ toString page) then
    match get page with
    | .error err => some ⟨all, some err, requests ++ [page]⟩
    | .ok resp =>
      if ((page + 1 : Nat) : Int) ≥ resp.NumPages then
        some ⟨all ++ resp.Sessions, none, requests ++ [page]⟩
      else if _h : page + 1 > 200 then
        some ⟨all ++ resp.Sessions, none, requests ++ [page]⟩
      else
        Client.sessionsLoopRun newRequest get (page + 1) (all ++ resp.Sessions)
          (requests ++ [page])
  else none
termination_by 201 - page
decreasing_by omega

/-- Lines 162-285: what `Scrape` does with the values `Client.Sessions`
returned. -/
def publishSessions (run : SessionsRun) (libNames : GoMap String String) (e : Exporter)
    (success : Bool) : Exporter × Bool :=
  match run.err with
  | some _ => (e, false)
  | none => (publishRollups (aggregate run.all libNames) run.all e, success)

/-- The method `Exporter.Scrape` with the panics of `get`: the sink's content
when `Scrape` returns, or when a call of `get` panics. -/
def Exporter.ScrapeRun (newRequest : String → Bool) (c : Client) (clock : Clock)
    (e : Exporter) : Ended Exporter :=
  let success := true
  let e := { e with up := 0 }
  let e := { e with lastSuccess := 0 }
  if newRequest "/api/users" then
    let u := scrapeUsers c e success
    match scrapeLibrariesRun newRequest c u.1 u.2 with
    | .panicked l => .panicked l.1
    | .returned l =>
      match Client.sessionsLoopRun newRequest c.sessionsPage 0 [] [] with
      | none => .panicked l.1
      | some run =>
        let s := publishSessions run l.2.1 l.1 l.2.2
        let e := s.1
        let e := if s.2 then { e with up := 1, lastSuccess := 1 } else e
        .returned
          { e with lastTime := (clock.unix : ℚ), duration := e.duration ++ [clock.elapsed] }
  else .panicked e


/-! ## Vocabulary of the statements -/

/-- A session is included in the aggregation when `timeListening > 0`. -/
def included (s : Session) : Bool := decide (0 < s.TimeListening)

/-- The included sessions of `ss` whose key is `k`. -/
def bucket {K : Type} [DecidableEq K] (key : Session → K) (ss : List Session) (k : K) :
    List Session :=
  ss.filter (fun s => included s && decide (key s = k))

/-- What a seconds series should show under label `k`: nothing when no
included session has key `k`, else the sum of their `timeListening`. -/
def bucketSeconds {K : Type} [DecidableEq K] (key : Session → K) (ss : List Session)
    (k : K) : Option ℚ :=
  if (bucket key ss k).isEmpty then none
  else some ((bucket key ss k).map (fun s => s.TimeListening)).sum

/-- What a count series should show under label `k`: nothing when no included
session has key `k`, else their number. -/
def bucketCount {K : Type} [DecidableEq K] (key : Session → K) (ss : List Session)
    (k : K) : Option ℚ :=
  if (bucket key ss k).isEmpty then none
  else some ((bucket key ss k).length : ℚ)

/-- The sum of `timeListening` over the included sessions. -/
def includedSeconds (ss : List Session) : ℚ :=
  ((ss.filter included).map (fun s => s.TimeListening)).sum

/-- One rollup of `aggregate` taken alone: the loop over the sessions reduced
to a single map with key `key` and increment `val`. -/
def accumulate {K : Type} [DecidableEq K] (key : Session → K) (val : Session → ℚ)
    (ss : List Session) (m : GoMap K ℚ) : GoMap K ℚ :=
  ss.foldl (fun m s => if s.TimeListening ≤ 0 then m else m.add (key s) (val s)) m

/-- The entries of a rollup under the labels they are published with. -/
def relabel {K L : Type} (label : K → L) (m : GoMap K ℚ) : GoMap L ℚ :=
  m.map (fun kv => (label kv.1, kv.2))

/-- The seven per-dimension series of the sink. -/
def Exporter.dimensions (e : Exporter) :
    GoMap String ℚ × GoMap String ℚ × GoMap (String × String) ℚ ×
      GoMap (String × String) ℚ × GoMap String ℚ × GoMap (String × String) ℚ ×
      GoMap String ℚ :=
  (e.userListeningSeconds, e.userSessionsTotal, e.libraryListeningSeconds,
    e.librarySessionsTotal, e.bookListeningSeconds, e.deviceListeningSeconds,
    e.weekdayListeningSeconds)

/-- The libraries fetched in the cycle: none when the libraries fetch failed. -/
def Client.fetchedLibraries (c : Client) : List Library :=
  match c.Libraries with
  | .ok libs => libs
  | .error _ => []

/-- The value of `libNames` when `Scrape` reaches the sessions fetch. -/
def Client.libNames (c : Client) : GoMap String String :=
  (libsLoop c.LibraryDetail c.fetchedLibraries 0 ⟨[], [], true⟩).libNames

/-- The session list carried by page `p`: empty when the fetch of page `p`
fails. -/
def Client.pageSessions (c : Client) (p : Nat) : List Session :=
  match c.sessionsPage p with
  | .ok resp => resp.Sessions
  | .error _ => []

/-- Whether a fetch succeeded. -/
def succeeded {α : Type} : Except Error α → Bool
  | .ok _ => true
  | .error _ => false

/-- Whether the detail fetches issued for `libs`, the first of them being the
`i`-th of the cycle, all succeed. -/
def detailsSucceeded (detail : Nat → String → Except Error LibraryDetail) :
    List Library → Nat → Bool
  | [], _ => true
  | l :: libs, i => succeeded (detail i l.ID) && detailsSucceeded detail libs (i + 1)

/-- Whether the users fetch, the libraries fetch, every detail fetch and the
sessions fetch of the cycle all succeeded. -/
def Client.allSucceeded (c : Client) : Bool :=
  succeeded c.Users &&
    (match c.Libraries with
      | .ok libs => detailsSucceeded c.LibraryDetail libs 0
      | .error _ => false) &&
    c.Sessions.err.isNone

/-- The successful detail fetches issued for `libs`, in list order, each as the
label pair and the value of its `totalItems` as a gauge shows it (`value`); the
first fetch is the `i`-th of the cycle. -/
def detailSuccesses (value : Int → ℚ) (detail : Nat → String → Except Error LibraryDetail) :
    List Library → Nat → List ((String × String) × ℚ)
  | [], _ => []
  | l :: libs, i =>
    (match detail i l.ID with
      | .ok d => [((l.ID, l.Name), value d.TotalItems)]
      | .error _ => []) ++ detailSuccesses value detail libs (i + 1)

/-- What the item-count series should show under the label pair `p`: the
`totalItems` of the last library in list order carrying that pair whose detail
fetch succeeded. -/
def expectedItems (value : Int → ℚ) (detail : Nat → String → Except Error LibraryDetail)
    (libs : List Library) (p : String × String) : Option ℚ :=
  (((detailSuccesses value detail libs 0).filter (fun x => decide (x.1 = p))).getLast?).map
    Prod.snd

/-- The value of `totalItems` itself. -/
def exactItems (n : Int) : ℚ := (n : ℚ)

/-- The user-key in the words of the specification: the username of the user
block when the block is present and the username non-empty, otherwise `userId`
when non-empty, otherwise `"unknown"`. -/
def userKeySpec (s : Session) : String :=
  match s.User with
  | some u =>
    if u.Username ≠ "" then u.Username
    else if s.UserID ≠ "" then s.UserID else "unknown"
  | none => if s.UserID ≠ "" then s.UserID else "unknown"

/-- The last fetched library with identifier `id`. -/
def lastLibrary (libs : List Library) (id : String) : Option Library :=
  (libs.filter (fun l => decide (l.ID = id))).getLast?

/-- The library-key in the words of the specification: `libraryId`, or
`"unknown"` when it is empty, paired with the name of the fetched library with
that identifier, or with the identifier when no such library was fetched. -/
def libraryKeySpec (libs : List Library) (s : Session) : String × String :=
  let id := if s.LibraryID = "" then "unknown" else s.LibraryID
  match lastLibrary libs id with
  | some l => (id, l.Name)
  | none => (id, id)

/-- The library-key as amended: the name is that of the last fetched library
with the identifier when that name is non-empty, and the identifier otherwise. -/
def libraryKeyAmended (libs : List Library) (s : Session) : String × String :=
  let id := if s.LibraryID = "" then "unknown" else s.LibraryID
  match lastLibrary libs id with
  | some l => if l.Name = "" then (id, id) else (id, l.Name)
  | none => (id, id)

/-- Whether `"||"` occurs in a sequence of characters. -/
def hasDoubleBar : List Char → Bool
  | a :: b :: t => (a == '|' && b == '|') || hasDoubleBar (b :: t)
  | _ => false

/-- An identifier that neither contains `"||"` nor ends in `"|"`. -/
def barSafe (id : String) : Bool := !hasDoubleBar (id.data ++ ['|'])


/-! ## Concrete inputs -/

/-- A sink in which every gauge is zero and every series is empty. -/
def emptySink : Exporter := ⟨0, 0, [], 0, 0, [], [], [], [], [], [], [], [], 0⟩

/-- A sink that holds the snapshot of an earlier, successful cycle. -/
def earlierSink : Exporter :=
  { up := 1
    users := 3
    libItems := [(("old", "Old library"), 7)]
    lastSuccess := 1
    lastTime := 1700000000
    duration := [1 / 2]
    userListeningSeconds := [("carol", 5)]
    userSessionsTotal := [("carol", 1)]
    libraryListeningSeconds := [(("old", "Old library"), 5)]
    librarySessionsTotal := [(("old", "Old library"), 1)]
    bookListeningSeconds := [("Old book", 5)]
    deviceListeningSeconds := [(("web", "chrome"), 5)]
    weekdayListeningSeconds := [("Sunday", 5)]
    sessionsTotal := 9 }

def sampleClock : Clock := ⟨1700000030, 1 / 4⟩

/-- A session of user `user` on day `dayOfWeek`, in library `libraryId`. -/
def sessionOf (user libraryId dayOfWeek : String) (timeListening : ℚ) : Session :=
  { LibraryID := libraryId
    UserID := ""
    MediaType := "book"
    Duration := 3600
    TimeListening := timeListening
    Date := "2024-01-01"
    DayOfWeek := dayOfWeek
    User := some ⟨"id-" ++ user, user⟩
    DeviceInfo := none
    MediaMetadata := none }

/-- A session with no user block, no `userId`, no device and no media. -/
def anonymousSession (timeListening : ℚ) : Session :=
  { LibraryID := ""
    UserID := ""
    MediaType := ""
    Duration := 0
    TimeListening := timeListening
    Date := ""
    DayOfWeek := ""
    User := none
    DeviceInfo := none
    MediaMetadata := none }

/-- A server whose sessions fit in one page. -/
def singlePage (ss : List Session) : Nat → Except Error SessionsResponse :=
  fun _ => .ok ⟨ss.length, 1, 0, 10, ss⟩

/-- The example of the specification: alice listened 120 seconds on Monday,
bob has a session with no listening time on Tuesday. -/
def aliceBobClient : Client :=
  { Users := .ok [⟨"id-alice", "alice"⟩, ⟨"id-bob", "bob"⟩]
    Libraries := .ok []
    LibraryDetail := fun _ _ => .error "no such library"
    sessionsPage := singlePage [sessionOf "alice" "" "Mon" 120, sessionOf "bob" "" "Tue" 0] }

/-- A server that declares two pages, serves the first and fails on the second. -/
def flakyClient : Client :=
  { Users := .ok [⟨"id-alice", "alice"⟩]
    Libraries := .ok []
    LibraryDetail := fun _ _ => .error "no such library"
    sessionsPage := fun p =>
      match p with
      | 0 => .ok ⟨2, 2, 0, 1, [sessionOf "alice" "" "Mon" 120]⟩
      | _ => .error "bad status 500" }

/-- A server that on every response declares more pages than have been
requested so far, and never fails. -/
def greedyClient : Client :=
  { Users := .ok []
    Libraries := .ok []
    LibraryDetail := fun _ _ => .error "no such library"
    sessionsPage := fun p => .ok ⟨0, (p : Int) + 2, p, 10, []⟩ }

/-- A server whose sessions endpoint is down while the rest answers. -/
def sessionsDownClient : Client :=
  { Users := .ok [⟨"id-alice", "alice"⟩]
    Libraries := .ok []
    LibraryDetail := fun _ _ => .error "no such library"
    sessionsPage := fun _ => .error "connection refused" }

/-- Three libraries; the detail fetch of the second one fails, every other
fetch succeeds. -/
def threeLibrariesClient : Client :=
  { Users := .ok [⟨"id-alice", "alice"⟩]
    Libraries := .ok [⟨"L1", "Fiction"⟩, ⟨"L2", "Podcasts"⟩, ⟨"L3", "History"⟩]
    LibraryDetail := fun _ id =>
      if id = "L1" then .ok ⟨10⟩
      else if id = "L3" then .ok ⟨30⟩
      else .error "bad status 500"
    sessionsPage := singlePage [sessionOf "alice" "L1" "Mon" 120] }

/-- The same three libraries with every fetch succeeding. -/
def healthyClient : Client :=
  { threeLibrariesClient with LibraryDetail := fun _ _ => .ok ⟨10⟩ }

/-- Whether a character is a hexadecimal digit. -/
def isHexDigit (c : Char) : Bool :=
  c.isDigit || (decide ('a' ≤ c) && decide (c ≤ 'f')) ||
    (decide ('A' ≤ c) && decide (c ≤ 'F'))

/-- Whether every `%` in a text is followed by two hexadecimal digits. -/
def escapesParse : List Char → Bool
  | [] => true
  | c :: rest =>
    if c = '%' then
      match rest with
      | a :: b :: _ => isHexDigit a && isHexDigit b && escapesParse rest
      | _ => false
    else escapesParse rest

/-- A `newRequest` that, as `url.Parse` does, refuses a URL with a malformed
percent escape, and builds every other request. -/
def escapedRequest (path : String) : Bool := escapesParse path.data

/-- Three libraries, the second with the identifier `%zz`; every detail fetch
that is sent succeeds, as every other fetch. -/
def badIdClient : Client :=
  { Users := .ok [⟨"id-alice", "alice"⟩]
    Libraries := .ok [⟨"L1", "Fiction"⟩, ⟨"%zz", "Podcasts"⟩, ⟨"L3", "History"⟩]
    LibraryDetail := fun _ id => if id = "L3" then .ok ⟨30⟩ else .ok ⟨10⟩
    sessionsPage := singlePage [sessionOf "alice" "L1" "Mon" 120] }

/-- One library whose `totalItems` is `2^53 + 1`. -/
def hugeLibraryClient : Client :=
  { Users := .ok [⟨"id-alice", "alice"⟩]
    Libraries := .ok [⟨"L1", "Fiction"⟩]
    LibraryDetail := fun _ _ => .ok ⟨9007199254740993⟩
    sessionsPage := singlePage [sessionOf "alice" "L1" "Mon" 120] }

/-- Two sessions whose library-keys differ and whose concatenated keys are
both `"a||b||a||b"`: library `a||b` was not fetched, library `a` was fetched
under the name `b||a||b`. -/
def barClient : Client :=
  { Users := .ok []
    Libraries := .ok [⟨"a", "b||a||b"⟩]
    LibraryDetail := fun _ _ => .ok ⟨1⟩
    sessionsPage :=
      singlePage [sessionOf "alice" "a||b" "Mon" 1, sessionOf "alice" "a" "Mon" 2] }

/-- A fetched library whose name is empty. -/
def unnamedLibraryClient : Client :=
  { Users := .ok []
    Libraries := .ok [⟨"L1", ""⟩]
    LibraryDetail := fun _ _ => .ok ⟨1⟩
    sessionsPage := singlePage [sessionOf "alice" "L1" "Mon" 1] }

/-- Sessions in a named library, in a library with an empty name, in a library
that was not fetched and with no library at all. -/
def librariesClient : Client :=
  { Users := .ok []
    Libraries := .ok [⟨"L1", "Fiction"⟩, ⟨"L2", ""⟩]
    LibraryDetail := fun _ _ => .ok ⟨1⟩
    sessionsPage :=
      singlePage [sessionOf "alice" "L1" "Mon" 10, sessionOf "bob" "L2" "Tue" 20,
        sessionOf "alice" "" "Mon" 30, sessionOf "bob" "L1" "Wed" (1 / 2),
        sessionOf "bob" "L9" "Wed" 0, sessionOf "bob" "a|b" "Wed" 4] }

/-- A session without user block and `userId`, one whose user block has an
empty username, one identified by `userId` only, and one of alice. -/
def anonymousClient : Client :=
  { Users := .ok []
    Libraries := .ok []
    LibraryDetail := fun _ _ => .error "no such library"
    sessionsPage :=
      singlePage [anonymousSession 5,
        { anonymousSession 7 with User := some ⟨"", ""⟩ },
        { anonymousSession 11 with UserID := "u-42" },
        sessionOf "alice" "" "Mon" 120] }


/-! ## Go maps: lookups, keys and totals -/

namespace GoMap

variable {K V : Type} [DecidableEq K]

theorem get?_set (m : GoMap K V) (k k' : K) (v : V) :
    get? (set m k v) k' = if k = k' then some v else get? m k' := by
  induction m with
  | nil => simp [set, get?]
  | cons x m ih =>
    obtain ⟨a, b⟩ := x
    by_cases h : a = k
    · subst h
      by_cases h' : a = k' <;> simp [set, get?, h']
    · by_cases h' : a = k'
      · subst h'
        have : ¬ k = a := fun e => h e.symm
        simp [set, get?, h, this]
      · simp [set, get?, h, h', ih]

theorem getD_set (m : GoMap K V) (k k' : K) (v d : V) :
    getD (set m k v) k' d = if k = k' then v else getD m k' d := by
  unfold getD
  rw [get?_set]
  by_cases h : k = k' <;> simp [h]

theorem get?_add (m : GoMap K ℚ) (k k' : K) (v : ℚ) :
    get? (add m k v) k' = if k = k' then some (getD m k 0 + v) else get? m k' := by
  unfold add
  rw [get?_set]

theorem getD_add (m : GoMap K ℚ) (k k' : K) (v : ℚ) :
    getD (add m k v) k' 0 = if k = k' then getD m k 0 + v else getD m k' 0 := by
  unfold add
  rw [getD_set]

theorem get?_eq_none_iff (m : GoMap K V) (k : K) : get? m k = none ↔ k ∉ keys m := by
  induction m with
  | nil => simp [get?, keys]
  | cons x m ih =>
    obtain ⟨a, b⟩ := x
    by_cases h : a = k
    · simp [get?, keys, h]
    · have h' : ¬ k = a := fun e => h e.symm
      simp only [get?, h, if_false, ih]
      simp [keys, h']

theorem set_of_not_mem (m : GoMap K V) (k : K) (v : V) (h : k ∉ keys m) :
    set m k v = m ++ [(k, v)] := by
  induction m with
  | nil => simp [set]
  | cons x m ih =>
    obtain ⟨a, b⟩ := x
    have h1 : ¬ a = k := by
      intro e
      apply h
      simp [keys, e]
    have h2 : k ∉ keys m := by
      intro e
      apply h
      simp only [keys, List.map_cons, List.mem_cons]
      exact Or.inr e
    simp [set, h1, ih h2]

theorem keys_set (m : GoMap K V) (k : K) (v : V) :
    keys (set m k v) = if k ∈ keys m then keys m else keys m ++ [k] := by
  induction m with
  | nil => simp [set, keys]
  | cons x m ih =>
    obtain ⟨a, b⟩ := x
    by_cases h : a = k
    · subst h
      simp [set, keys]
    · have h' : ¬ k = a := fun e => h e.symm
      have ih' := ih
      simp only [keys] at ih'
      by_cases hm : k ∈ List.map Prod.fst m
      · simp [set, keys, h, h', hm, ih'] 
      · simp [set, keys, h, h', hm, ih']

theorem nodup_keys_set (m : GoMap K V) (k : K) (v : V) (h : (keys m).Nodup) :
    (keys (set m k v)).Nodup := by
  rw [keys_set]
  by_cases hm : k ∈ keys m
  · simpa [hm] using h
  · simp only [hm, if_false]
    rw [List.nodup_append]
    refine ⟨h, List.nodup_singleton k, ?_⟩
    intro a ha hb
    simp only [List.mem_singleton] at hb
    exact hm (hb ▸ ha)

theorem total_add (m : GoMap K ℚ) (k : K) (v : ℚ) : total (add m k v) = total m + v := by
  unfold add
  induction m with
  | nil => simp [set, total, getD, get?]
  | cons x m ih =>
    obtain ⟨a, b⟩ := x
    by_cases h : a = k
    · simp [set, total, getD, get?, h]
      ring
    · have e : getD ((a, b) :: m) k 0 = getD m k 0 := by simp [getD, get?, h]
      rw [e]
      simp only [set, h, if_false]
      simp only [total, List.map_cons, List.sum_cons] at ih ⊢
      rw [ih]
      ring

end GoMap

/-! ## The loop over the sessions, one rollup at a time -/

section Accumulate

variable {K : Type} [DecidableEq K]

theorem accumulate_cons (key : Session → K) (val : Session → ℚ) (s : Session)
    (ss : List Session) (m : GoMap K ℚ) :
    accumulate key val (s :: ss) m =
      accumulate key val ss (if s.TimeListening ≤ 0 then m else m.add (key s) (val s)) := by
  simp [accumulate]

theorem included_eq_false_iff (s : Session) : included s = false ↔ s.TimeListening ≤ 0 := by
  simp [included]

theorem included_eq_true_iff (s : Session) : included s = true ↔ ¬ s.TimeListening ≤ 0 := by
  simp [included]

theorem accumulate_filter (key : Session → K) (val : Session → ℚ) (ss : List Session)
    (m : GoMap K ℚ) :
    accumulate key val (ss.filter included) m = accumulate key val ss m := by
  induction ss generalizing m with
  | nil => rfl
  | cons s ss ih =>
    by_cases h : s.TimeListening ≤ 0
    · have hi : included s = false := (included_eq_false_iff s).2 h
      rw [List.filter_cons_of_neg (by simp [hi]), accumulate_cons, if_pos h, ih]
    · have hi : included s = true := (included_eq_true_iff s).2 h
      rw [List.filter_cons_of_pos hi, accumulate_cons, accumulate_cons, if_neg h, ih]

theorem accumulate_congr (key key' : Session → K) (val : Session → ℚ) (ss : List Session)
    (m : GoMap K ℚ) (h : ∀ s ∈ ss, included s = true → key s = key' s) :
    accumulate key val ss m = accumulate key' val ss m := by
  induction ss generalizing m with
  | nil => rfl
  | cons s ss ih =>
    have ih' := fun m => ih m (fun t ht => h t (List.mem_cons_of_mem s ht))
    rw [accumulate_cons, accumulate_cons]
    by_cases hs : s.TimeListening ≤ 0
    · rw [if_pos hs, if_pos hs, ih']
    · rw [if_neg hs, if_neg hs,
        h s (List.mem_cons_self s ss) ((included_eq_true_iff s).2 hs), ih']

theorem total_accumulate (key : Session → K) (ss : List Session) (m : GoMap K ℚ) :
    GoMap.total (accumulate key (fun s => s.TimeListening) ss m) =
      GoMap.total m + includedSeconds ss := by
  induction ss generalizing m with
  | nil => simp [accumulate, includedSeconds]
  | cons s ss ih =>
    rw [accumulate_cons, ih]
    by_cases h : s.TimeListening ≤ 0
    · have hi : included s = false := (included_eq_false_iff s).2 h
      simp [includedSeconds, h, hi]
    · have hi : included s = true := (included_eq_true_iff s).2 h
      simp [includedSeconds, h, hi, GoMap.total_add]
      ring

theorem nodup_keys_accumulate (key : Session → K) (val : Session → ℚ) (ss : List Session)
    (m : GoMap K ℚ) (h : (GoMap.keys m).Nodup) :
    (GoMap.keys (accumulate key val ss m)).Nodup := by
  induction ss generalizing m with
  | nil => simpa [accumulate] using h
  | cons s ss ih =>
    rw [accumulate_cons]
    apply ih
    by_cases hs : s.TimeListening ≤ 0
    · simpa [hs] using h
    · simp only [hs, if_false]
      exact GoMap.nodup_keys_set m _ _ h

theorem get?_accumulate (key : Session → K) (val : Session → ℚ) (ss : List Session)
    (m : GoMap K ℚ) (k : K) :
    GoMap.get? (accumulate key val ss m) k =
      if (bucket key ss k).isEmpty then GoMap.get? m k
      else some (GoMap.getD m k 0 + ((bucket key ss k).map val).sum) := by
  induction ss generalizing m with
  | nil => simp [accumulate, bucket]
  | cons s ss ih =>
    rw [accumulate_cons, ih]
    by_cases hs : s.TimeListening ≤ 0
    · have hi : included s = false := (included_eq_false_iff s).2 hs
      simp [bucket, hs, hi]
    · have hi : included s = true := (included_eq_true_iff s).2 hs
      by_cases hk : key s = k
      · have e : bucket key (s :: ss) k = s :: bucket key ss k := by
          simp [bucket, hi, hk]
        rw [e]
        simp only [hs, if_false, GoMap.get?_add, GoMap.getD_add, hk, if_true,
          List.isEmpty_cons, List.map_cons, List.sum_cons, Bool.false_eq_true]
        by_cases hb : (bucket key ss k).isEmpty = true
        · have : bucket key ss k = [] := List.isEmpty_iff.mp hb
          simp [this]
        · simp [hb, add_assoc]
      · have e : bucket key (s :: ss) k = bucket key ss k := by
          simp [bucket, hi, hk]
        rw [e]
        simp [hs, GoMap.get?_add, GoMap.getD_add, hk]

theorem get?_accumulate_seconds (key : Session → K) (ss : List Session) (k : K) :
    GoMap.get? (accumulate key (fun s => s.TimeListening) ss []) k =
      bucketSeconds key ss k := by
  rw [get?_accumulate]
  simp [bucketSeconds, GoMap.get?, GoMap.getD]

theorem get?_accumulate_count (key : Session → K) (ss : List Session) (k : K) :
    GoMap.get? (accumulate key (fun _ => (1 : ℚ)) ss []) k = bucketCount key ss k := by
  rw [get?_accumulate]
  simp [bucketCount, GoMap.get?, GoMap.getD]

theorem mem_keys_accumulate (key : Session → K) (val : Session → ℚ) (ss : List Session)
    (k : K) (h : k ∈ GoMap.keys (accumulate key val ss [])) :
    ∃ s ∈ ss, included s = true ∧ key s = k := by
  have h1 : GoMap.get? (accumulate key val ss []) k ≠ none := by
    rw [Ne, GoMap.get?_eq_none_iff]
    exact fun hn => hn h
  rw [get?_accumulate] at h1
  by_cases hb : (bucket key ss k).isEmpty = true
  · simp [hb, GoMap.get?] at h1
  · have hne : bucket key ss k ≠ [] := fun e => hb (by simp [e])
    obtain ⟨s, hs⟩ := List.exists_mem_of_ne_nil _ hne
    simp only [bucket, List.mem_filter, Bool.and_eq_true, decide_eq_true_eq] at hs
    exact ⟨s, hs.1, hs.2.1, hs.2.2⟩

end Accumulate

theorem foldl_aggregateStep (libNames : GoMap String String) (ss : List Session)
    (r : Rollups) :
    ss.foldl (aggregateStep libNames) r =
      { userListening := accumulate username (fun s => s.TimeListening) ss r.userListening
        userSessions := accumulate username (fun _ => 1) ss r.userSessions
        libraryListening :=
          accumulate (libraryKey libNames) (fun s => s.TimeListening) ss r.libraryListening
        librarySessions := accumulate (libraryKey libNames) (fun _ => 1) ss r.librarySessions
        bookListening := accumulate title (fun s => s.TimeListening) ss r.bookListening
        deviceListening :=
          accumulate clientModel (fun s => s.TimeListening) ss r.deviceListening
        weekdayListening := accumulate day (fun s => s.TimeListening) ss r.weekdayListening } := by
  induction ss generalizing r with
  | nil => simp [accumulate]
  | cons s ss ih =>
    rw [List.foldl_cons, ih]
    simp only [accumulate_cons]
    by_cases h : s.TimeListening ≤ 0
    · simp [aggregateStep, h]
    · simp [aggregateStep, h]

theorem aggregate_eq (libNames : GoMap String String) (ss : List Session) :
    aggregate ss libNames =
      { userListening := accumulate username (fun s => s.TimeListening) ss []
        userSessions := accumulate username (fun _ => 1) ss []
        libraryListening := accumulate (libraryKey libNames) (fun s => s.TimeListening) ss []
        librarySessions := accumulate (libraryKey libNames) (fun _ => 1) ss []
        bookListening := accumulate title (fun s => s.TimeListening) ss []
        deviceListening := accumulate clientModel (fun s => s.TimeListening) ss []
        weekdayListening := accumulate day (fun s => s.TimeListening) ss [] } := by
  unfold aggregate
  rw [foldl_aggregateStep]
  rfl

theorem aggregate_filter (libNames : GoMap String String) (ss : List Session) :
    aggregate (ss.filter included) libNames = aggregate ss libNames := by
  rw [aggregate_eq, aggregate_eq]
  simp only [accumulate_filter]

/-! ## Publishing a rollup -/

section Publish

variable {K L : Type}

theorem keys_relabel (label : K → L) (m : GoMap K ℚ) :
    GoMap.keys (relabel label m) = (GoMap.keys m).map label := by
  simp [GoMap.keys, relabel, List.map_map, Function.comp_def]

theorem total_relabel (label : K → L) (m : GoMap K ℚ) :
    GoMap.total (relabel label m) = GoMap.total m := by
  simp [GoMap.total, relabel, List.map_map, Function.comp_def]

theorem publish_append [DecidableEq L] (label : K → L) (m : GoMap K ℚ) (vec : GoMap L ℚ)
    (h : (GoMap.keys vec ++ (GoMap.keys m).map label).Nodup) :
    publish label m vec = vec ++ relabel label m := by
  induction m generalizing vec with
  | nil => simp [publish, relabel]
  | cons x m ih =>
    obtain ⟨k, v⟩ := x
    have hk : label k ∉ GoMap.keys vec := by
      intro hmem
      rw [List.nodup_append] at h
      exact h.2.2 hmem (by simp [GoMap.keys])
    have hstep : publish label ((k, v) :: m) vec
        = publish label m (GoMap.set vec (label k) v) := by
      simp [publish]
    rw [hstep, GoMap.set_of_not_mem vec (label k) v hk, ih]
    · simp [relabel]
    · have e : GoMap.keys (vec ++ [(label k, v)]) ++ (GoMap.keys m).map label
          = GoMap.keys vec ++ (GoMap.keys ((k, v) :: m)).map label := by
        simp [GoMap.keys]
      rw [e]
      exact h

theorem publish_eq_relabel [DecidableEq L] (label : K → L) (m : GoMap K ℚ)
    (hnd : (GoMap.keys m).Nodup)
    (hinj : ∀ a ∈ GoMap.keys m, ∀ b ∈ GoMap.keys m, label a = label b → a = b) :
    publish label m [] = relabel label m := by
  rw [publish_append]
  · simp
  · simpa [GoMap.keys] using List.Nodup.map_on hinj hnd

theorem relabel_id (m : GoMap K ℚ) : relabel id m = m := by
  simp [relabel]

theorem publish_id [DecidableEq K] (m : GoMap K ℚ) (hnd : (GoMap.keys m).Nodup) : publish id m [] = m := by
  rw [publish_eq_relabel id m hnd (fun a _ b _ h => h), relabel_id]

theorem get?_relabel [DecidableEq K] [DecidableEq L] (label : K → L) (P : K → Prop)
    (hinj : ∀ a b, P a → P b → label a = label b → a = b) (m : GoMap K ℚ) (k : K)
    (hm : ∀ a ∈ GoMap.keys m, P a) (hk : P k) :
    GoMap.get? (relabel label m) (label k) = GoMap.get? m k := by
  induction m with
  | nil => simp [relabel, GoMap.get?]
  | cons x m ih =>
    obtain ⟨a, b⟩ := x
    have ha : P a := hm a (by simp [GoMap.keys])
    have hm' : ∀ a ∈ GoMap.keys m, P a := by
      intro c hc
      apply hm
      simp only [GoMap.keys, List.map_cons, List.mem_cons]
      exact Or.inr hc
    have ih' := ih hm'
    simp only [relabel] at ih'
    by_cases h : a = k
    · simp [relabel, GoMap.get?, h]
    · have h' : ¬ label a = label k := fun e => h (hinj a k ha hk e)
      simp [relabel, GoMap.get?, h, h', ih']

theorem relabel_set [DecidableEq K] [DecidableEq L] (label : K → L) (P : K → Prop)
    (hinj : ∀ a b, P a → P b → label a = label b → a = b) (m : GoMap K ℚ) (k : K) (v : ℚ)
    (hm : ∀ a ∈ GoMap.keys m, P a) (hk : P k) :
    relabel label (GoMap.set m k v) = GoMap.set (relabel label m) (label k) v := by
  induction m with
  | nil => simp [relabel, GoMap.set]
  | cons x m ih =>
    obtain ⟨a, b⟩ := x
    have ha : P a := hm a (by simp [GoMap.keys])
    have hm' : ∀ a ∈ GoMap.keys m, P a := by
      intro c hc
      apply hm
      simp only [GoMap.keys, List.map_cons, List.mem_cons]
      exact Or.inr hc
    have ih' := ih hm'
    simp only [relabel] at ih'
    by_cases h : a = k
    · simp [relabel, GoMap.set, h]
    · have h' : ¬ label a = label k := fun e => h (hinj a k ha hk e)
      simp [relabel, GoMap.set, h, h', ih']

theorem relabel_add [DecidableEq K] [DecidableEq L] (label : K → L) (P : K → Prop)
    (hinj : ∀ a b, P a → P b → label a = label b → a = b) (m : GoMap K ℚ) (k : K) (v : ℚ)
    (hm : ∀ a ∈ GoMap.keys m, P a) (hk : P k) :
    relabel label (GoMap.add m k v) = GoMap.add (relabel label m) (label k) v := by
  unfold GoMap.add
  rw [relabel_set label P hinj m k _ hm hk]
  unfold GoMap.getD
  rw [get?_relabel label P hinj m k hm hk]

theorem relabel_accumulate [DecidableEq K] [DecidableEq L] (label : K → L) (P : K → Prop)
    (hinj : ∀ a b, P a → P b → label a = label b → a = b) (key : Session → K)
    (val : Session → ℚ) (ss : List Session) (m : GoMap K ℚ)
    (hm : ∀ a ∈ GoMap.keys m, P a) (hs : ∀ s ∈ ss, included s = true → P (key s)) :
    relabel label (accumulate key val ss m) =
      accumulate (fun s => label (key s)) val ss (relabel label m) := by
  induction ss generalizing m with
  | nil => simp [accumulate]
  | cons s ss ih =>
    have hs' : ∀ t ∈ ss, included t = true → P (key t) :=
      fun t ht => hs t (List.mem_cons_of_mem s ht)
    rw [accumulate_cons, accumulate_cons]
    by_cases h : s.TimeListening ≤ 0
    · rw [if_pos h, if_pos h, ih m hm hs']
    · have hk : P (key s) := hs s (List.mem_cons_self s ss) ((included_eq_true_iff s).2 h)
      rw [if_neg h, if_neg h, ih _ _ hs', relabel_add label P hinj m _ _ hm hk]
      intro a ha
      unfold GoMap.add at ha
      rw [GoMap.keys_set] at ha
      by_cases hmem : key s ∈ GoMap.keys m
      · rw [if_pos hmem] at ha
        exact hm a ha
      · rw [if_neg hmem, List.mem_append, List.mem_singleton] at ha
        rcases ha with ha | ha
        · exact hm a ha
        · exact ha ▸ hk

theorem keys_accumulate_of [DecidableEq K] (P : K → Prop) (key : Session → K) (val : Session → ℚ)
    (ss : List Session) (hs : ∀ s ∈ ss, included s = true → P (key s)) :
    ∀ a ∈ GoMap.keys (accumulate key val ss []), P a := by
  intro a ha
  obtain ⟨s, hmem, hi, hk⟩ := mem_keys_accumulate key val ss a ha
  exact hk ▸ hs s hmem hi

/-- Publishing a rollup under an injective relabelling gives the rollup of the
relabelled keys. -/
theorem publish_accumulate [DecidableEq K] [DecidableEq L] (label : K → L) (P : K → Prop)
    (hinj : ∀ a b, P a → P b → label a = label b → a = b) (key : Session → K)
    (val : Session → ℚ) (ss : List Session)
    (hs : ∀ s ∈ ss, included s = true → P (key s)) :
    publish label (accumulate key val ss []) [] =
      accumulate (fun s => label (key s)) val ss [] := by
  have hP := keys_accumulate_of P key val ss hs
  rw [publish_eq_relabel label _ (nodup_keys_accumulate key val ss [] (by simp [GoMap.keys]))
    (fun a ha b hb h => hinj a b (hP a ha) (hP b hb) h)]
  rw [relabel_accumulate label P hinj key val ss [] (by simp [GoMap.keys]) hs]
  rfl

theorem publish_id_accumulate [DecidableEq K] (key : Session → K) (val : Session → ℚ) (ss : List Session) :
    publish id (accumulate key val ss []) [] = accumulate key val ss [] :=
  publish_id _ (nodup_keys_accumulate key val ss [] (by simp [GoMap.keys]))

/-- A lookup in a map with distinct keys does not depend on the order of its
entries. -/
theorem get?_perm [DecidableEq K] {V : Type} (m m' : GoMap K V) (hp : List.Perm m m')
    (hnd : (GoMap.keys m).Nodup) (k : K) : GoMap.get? m k = GoMap.get? m' k := by
  induction hp with
  | nil => rfl
  | cons x _ ih =>
    obtain ⟨a, b⟩ := x
    have hnd' : (GoMap.keys _).Nodup := (List.nodup_cons.mp (by simpa [GoMap.keys] using hnd)).2
    simp only [GoMap.get?]
    rw [ih (by simpa [GoMap.keys] using hnd')]
  | swap x y l =>
    obtain ⟨a, b⟩ := x
    obtain ⟨a', b'⟩ := y
    have hne : a' ≠ a := by
      intro e
      simp [GoMap.keys, e] at hnd
    simp only [GoMap.get?]
    by_cases h1 : a' = k
    · have h2 : ¬ a = k := fun e => hne (h1.trans e.symm)
      simp [h1, h2]
    · simp [h1]
  | trans h12 _ ih1 ih2 =>
    rw [ih1 hnd, ih2]
    exact (List.Perm.nodup_iff (List.Perm.map Prod.fst h12)).mp hnd

/-- The outcome of a publishing loop does not depend on the order in which
the loop ranges over the map. -/
theorem get?_publish_perm [DecidableEq K] [DecidableEq L] (label : K → L)
    (m m' : GoMap K ℚ) (hp : List.Perm m m') (hnd : (GoMap.keys m).Nodup)
    (hinj : ∀ a ∈ GoMap.keys m, ∀ b ∈ GoMap.keys m, label a = label b → a = b) (p : L) :
    GoMap.get? (publish label m []) p = GoMap.get? (publish label m' []) p := by
  have hk : List.Perm (GoMap.keys m) (GoMap.keys m') := List.Perm.map Prod.fst hp
  have hnd' : (GoMap.keys m').Nodup := (List.Perm.nodup_iff hk).mp hnd
  have hinj' : ∀ a ∈ GoMap.keys m', ∀ b ∈ GoMap.keys m', label a = label b → a = b :=
    fun a ha b hb h => hinj a (hk.mem_iff.mpr ha) b (hk.mem_iff.mpr hb) h
  rw [publish_eq_relabel label m hnd hinj, publish_eq_relabel label m' hnd' hinj']
  apply get?_perm
  · exact List.Perm.map _ hp
  · rw [keys_relabel]
    exact List.Nodup.map_on hinj hnd

end Publish

/-! ## `splitOnce` -/

theorem find_of_take (sep l : List Char) (i : Nat) (h1 : sep.length ≤ l.length)
    (h2 : l.take sep.length = sep) : splitOnce.find sep l i = (i : Int) := by
  cases l with
  | nil =>
    have hs : sep = [] := by simpa using h2.symm
    simp [splitOnce.find, hs]
  | cons c rest => rw [splitOnce.find, if_pos h1, if_pos h2]

theorem find_spec (sep l : List Char) (i : Nat) :
    splitOnce.find sep l i = -1 ∨
      ∃ n : Nat, splitOnce.find sep l i = ((i + n : Nat) : Int) ∧
        l = l.take n ++ sep ++ l.drop (n + sep.length) := by
  induction l generalizing i with
  | nil =>
    by_cases hs : sep = []
    · right
      exact ⟨0, by simp [splitOnce.find, hs], by simp [hs]⟩
    · left
      have : ¬ ([] : List Char) = sep := fun e => hs e.symm
      simp [splitOnce.find, this]
  | cons c rest ih =>
    by_cases h1 : sep.length ≤ (c :: rest).length
    · by_cases h2 : (c :: rest).take sep.length = sep
      · right
        refine ⟨0, by simp [find_of_take sep (c :: rest) i h1 h2], ?_⟩
        have := List.take_append_drop sep.length (c :: rest)
        rw [h2] at this
        simpa using this.symm
      · have e : splitOnce.find sep (c :: rest) i = splitOnce.find sep rest (i + 1) := by
          rw [splitOnce.find]
          rw [if_pos h1, if_neg h2]
        rw [e]
        rcases ih (i + 1) with h | ⟨n, hn, hl⟩
        · left
          exact h
        · right
          refine ⟨n + 1, ?_, ?_⟩
          · rw [hn]
            congr 1
            omega
          · have e2 : n + 1 + sep.length = (n + sep.length) + 1 := by omega
            rw [e2, List.take_succ_cons, List.drop_succ_cons]
            simp only [List.cons_append]
            rw [← hl]
    · left
      rw [splitOnce.find]
      rw [if_neg h1]

theorem find_append_ne (sep x y : List Char) (i : Nat) :
    splitOnce.find sep (x ++ sep ++ y) i ≠ -1 := by
  induction x generalizing i with
  | nil =>
    rw [find_of_take sep ([] ++ sep ++ y) i (by simp) (by simp)]
    omega
  | cons c x ih =>
    have h1 : sep.length ≤ (c :: x ++ sep ++ y).length := by
      simp only [List.length_append, List.length_cons]
      omega
    by_cases h2 : (c :: x ++ sep ++ y).take sep.length = sep
    · rw [find_of_take sep _ i h1 h2]
      omega
    · have e : splitOnce.find sep (c :: x ++ sep ++ y) i
          = splitOnce.find sep (x ++ sep ++ y) (i + 1) := by
        have hc : c :: x ++ sep ++ y = c :: (x ++ sep ++ y) := by simp
        rw [hc] at h1 h2 ⊢
        rw [splitOnce.find]
        rw [if_pos h1, if_neg h2]
      rw [e]
      exact ih (i + 1)

theorem splitOnce_join_of_find (s sep : String)
    (h : splitOnce.find sep.data s.data 0 ≠ -1) :
    (splitOnce s sep).1 ++ sep ++ (splitOnce s sep).2 = s := by
  rcases find_spec sep.data s.data 0 with h' | ⟨n, hn, hl⟩
  · exact absurd h' h
  · apply String.ext
    have hidx : ¬ splitOnce.find sep.data s.data 0 = -1 := h
    simp only [splitOnce, hidx, if_false, String.data_append]
    rw [hn]
    simp only [zero_add, Int.toNat_ofNat]
    exact hl.symm

/-- When the separator occurs in `s`, `splitOnce` cuts `s` at an occurrence:
joining the two parts with the separator gives `s` back. -/
theorem splitOnce_join (a sep b : String) :
    (splitOnce (a ++ sep ++ b) sep).1 ++ sep ++ (splitOnce (a ++ sep ++ b) sep).2
      = a ++ sep ++ b := by
  apply splitOnce_join_of_find
  have hd : (a ++ sep ++ b).data = a.data ++ sep.data ++ b.data := by
    simp [String.data_append]
  rw [hd]
  exact find_append_ne sep.data a.data b.data 0

theorem splitOnce_injOn (sep k k' : String) (hk : ∃ a b : String, k = a ++ sep ++ b)
    (hk' : ∃ a b : String, k' = a ++ sep ++ b) (h : splitOnce k sep = splitOnce k' sep) :
    k = k' := by
  obtain ⟨a, b, rfl⟩ := hk
  obtain ⟨a', b', rfl⟩ := hk'
  rw [← splitOnce_join a sep b, ← splitOnce_join a' sep b', h]

theorem find_barSafe (x y : List Char) (i : Nat) (h : hasDoubleBar (x ++ ['|']) = false) :
    splitOnce.find ['|', '|'] (x ++ '|' :: '|' :: y) i = ((i + x.length : Nat) : Int) := by
  induction x generalizing i with
  | nil =>
    rw [find_of_take] <;> simp
  | cons c x ih =>
    have hx : hasDoubleBar (x ++ ['|']) = false := by
      cases x with
      | nil => rfl
      | cons d x =>
        simp only [List.cons_append, hasDoubleBar, Bool.or_eq_false_iff] at h
        simpa using h.2
    have h2 : ¬ (c :: (x ++ '|' :: '|' :: y)).take 2 = ['|', '|'] := by
      cases x with
      | nil =>
        simp only [List.cons_append, List.nil_append, hasDoubleBar, Bool.or_eq_false_iff] at h
        simp at h
        simp [h]
      | cons d x =>
        simp only [List.cons_append, hasDoubleBar, Bool.or_eq_false_iff] at h
        have h' := h.1
        simp at h'
        simp
        exact h'
    have e : splitOnce.find ['|', '|'] (c :: x ++ '|' :: '|' :: y) i
        = splitOnce.find ['|', '|'] (x ++ '|' :: '|' :: y) (i + 1) := by
      have hc : c :: x ++ '|' :: '|' :: y = c :: (x ++ '|' :: '|' :: y) := by simp
      rw [hc, splitOnce.find]
      have h1 : ['|', '|'].length ≤ (c :: (x ++ '|' :: '|' :: y)).length := by
        simp only [List.length_append, List.length_cons, List.length_nil]
        omega
      rw [if_pos h1]
      simp only [List.length_cons, List.length_nil] at h2 ⊢
      rw [if_neg h2]
    rw [e, ih (i + 1) hx]
    congr 1
    simp only [List.length_cons]
    omega

/-- For an identifier that neither contains `"||"` nor ends in `"|"`,
`splitOnce` undoes the construction of `libraryKey`. -/
theorem splitOnce_barSafe (id name : String) (h : barSafe id = true) :
    splitOnce (id ++ "||" ++ name) "||" = (id, name) := by
  have hb : hasDoubleBar (id.data ++ ['|']) = false := by
    simpa [barSafe] using h
  have hd : (id ++ "||" ++ name).data = id.data ++ '|' :: '|' :: name.data := by
    simp [String.data_append]
  have hf := find_barSafe id.data name.data 0 hb
  have hs : ("||" : String).data = ['|', '|'] := rfl
  have hidx : ¬ splitOnce.find ("||" : String).data (id ++ "||" ++ name).data 0 = -1 := by
    rw [hs, hd, hf]
    omega
  have hl : ("||" : String).length = 2 := rfl
  simp only [splitOnce, hidx, if_false]
  rw [hd, hf, hl]
  simp only [zero_add, Int.toNat_ofNat]
  have h1 : List.take id.data.length (id.data ++ '|' :: '|' :: name.data) = id.data := by
    simp
  have h2 : List.drop (id.data.length + 2) (id.data ++ '|' :: '|' :: name.data)
      = name.data := by
    rw [List.drop_append]
    rfl
  rw [h1, h2]

/-! ## The loop over the libraries -/

theorem libsLoop_success (detail : Nat → String → Except Error LibraryDetail)
    (libs : List Library) (i : Nat) (st : LibsState) :
    (libsLoop detail libs i st).success = (st.success && detailsSucceeded detail libs i) := by
  induction libs generalizing i st with
  | nil => simp [libsLoop, detailsSucceeded]
  | cons l libs ih =>
    rw [libsLoop, detailsSucceeded]
    cases h : detail i l.ID with
    | error err => simp [ih, succeeded]
    | ok d => simp [ih, succeeded]

theorem libsLoop_libNames (detail : Nat → String → Except Error LibraryDetail)
    (libs : List Library) (i : Nat) (st : LibsState) (k : String) :
    GoMap.get? (libsLoop detail libs i st).libNames k =
      ((lastLibrary libs k).map (fun l => l.Name)).or (GoMap.get? st.libNames k) := by
  induction libs generalizing i st with
  | nil => simp [libsLoop, lastLibrary]
  | cons l libs ih =>
    have hl : lastLibrary (l :: libs) k
        = (lastLibrary libs k).or (if l.ID = k then some l else none) := by
      unfold lastLibrary
      by_cases h : l.ID = k
      · rw [List.filter_cons_of_pos (by simpa using h), if_pos h,
          ← List.singleton_append, List.getLast?_append]
        simp
      · rw [List.filter_cons_of_neg (by simpa using h), if_neg h]
        simp
    rw [libsLoop, hl]
    cases h : detail i l.ID with
    | error err =>
      simp only [ih, GoMap.get?_set]
      by_cases hk : l.ID = k <;> cases lastLibrary libs k <;> simp [hk]
    | ok d =>
      simp only [ih, GoMap.get?_set]
      by_cases hk : l.ID = k <;> cases lastLibrary libs k <;> simp [hk]

theorem libsLoop_libItems (detail : Nat → String → Except Error LibraryDetail)
    (libs : List Library) (i : Nat) (st : LibsState) (p : String × String) :
    GoMap.get? (libsLoop detail libs i st).libItems p =
      ((((detailSuccesses float64OfInt detail libs i).filter
        (fun x => decide (x.1 = p))).getLast?).map
        Prod.snd).or (GoMap.get? st.libItems p) := by
  induction libs generalizing i st with
  | nil => simp [libsLoop, detailSuccesses]
  | cons l libs ih =>
    rw [libsLoop, detailSuccesses]
    cases h : detail i l.ID with
    | error err =>
      simp only [ih, List.nil_append]
    | ok d =>
      simp only [ih, GoMap.get?_set, List.filter_append, List.getLast?_append]
      by_cases hk : (l.ID, l.Name) = p
      · cases (List.filter (fun x => decide (x.1 = p))
          (detailSuccesses float64OfInt detail libs (i + 1))).getLast? <;> simp [hk]
      · cases (List.filter (fun x => decide (x.1 = p))
          (detailSuccesses float64OfInt detail libs (i + 1))).getLast? <;> simp [hk]

theorem libName_eq (c : Client) (s : Session) :
    (libID s, libName c.libNames s) = libraryKeyAmended c.fetchedLibraries s := by
  have hg := libsLoop_libNames c.LibraryDetail c.fetchedLibraries 0 ⟨[], [], true⟩ (libID s)
  have hid : (if s.LibraryID = "" then "unknown" else s.LibraryID) = libID s := rfl
  simp only [libraryKeyAmended, hid, libName, GoMap.getD, Client.libNames]
  rw [hg]
  cases hl : lastLibrary c.fetchedLibraries (libID s) with
  | none => simp [GoMap.get?]
  | some l =>
    by_cases hn : l.Name = "" <;> simp [hn]

/-! ## One scrape cycle, field by field -/

theorem scrapeLibraries_libNames (c : Client) (e : Exporter) (b : Bool) :
    (scrapeLibraries c e b).2.1 = c.libNames := by
  unfold scrapeLibraries Client.libNames Client.fetchedLibraries
  cases h : c.Libraries with
  | error err => rfl
  | ok libs =>
    simp only
    generalize (0 : Nat) = i
    generalize hs : ([] : GoMap (String × String) ℚ) = items
    have key : ∀ (libs : List Library) (i : Nat) (st st' : LibsState),
        st.libNames = st'.libNames →
        (libsLoop c.LibraryDetail libs i st).libNames
          = (libsLoop c.LibraryDetail libs i st').libNames := by
      intro libs
      induction libs with
      | nil => intro i st st' h; simpa [libsLoop] using h
      | cons l libs ih =>
        intro i st st' h
        rw [libsLoop, libsLoop]
        cases detail_eq : c.LibraryDetail i l.ID with
        | error err => exact ih _ _ _ (by simp [h])
        | ok d => exact ih _ _ _ (by simp [h])
    exact key libs i _ _ rfl

theorem scrapeUsers_dimensions (c : Client) (e : Exporter) (b : Bool) :
    (scrapeUsers c e b).1.dimensions = e.dimensions ∧
      (scrapeUsers c e b).1.sessionsTotal = e.sessionsTotal ∧
      (scrapeUsers c e b).1.libItems = e.libItems ∧
      (scrapeUsers c e b).1.up = e.up ∧
      (scrapeUsers c e b).1.lastSuccess = e.lastSuccess ∧
      (scrapeUsers c e b).2 = (b && succeeded c.Users) := by
  unfold scrapeUsers
  cases c.Users <;> simp [Exporter.dimensions, succeeded]

theorem scrapeLibraries_dimensions (c : Client) (e : Exporter) (b : Bool) :
    (scrapeLibraries c e b).1.dimensions = e.dimensions ∧
      (scrapeLibraries c e b).1.sessionsTotal = e.sessionsTotal ∧
      (scrapeLibraries c e b).1.up = e.up ∧
      (scrapeLibraries c e b).1.lastSuccess = e.lastSuccess ∧
      (scrapeLibraries c e b).2.2 =
        (b && match c.Libraries with
          | .ok libs => detailsSucceeded c.LibraryDetail libs 0
          | .error _ => false) := by
  unfold scrapeLibraries
  cases c.Libraries <;> simp [Exporter.dimensions, libsLoop_success]

theorem scrapeLibraries_libItems (c : Client) (e : Exporter) (b : Bool) (libs : List Library)
    (h : c.Libraries = .ok libs) :
    (scrapeLibraries c e b).1.libItems
      = (libsLoop c.LibraryDetail libs 0 ⟨[], [], b⟩).libItems := by
  unfold scrapeLibraries
  rw [h]

theorem scrapeSessions_ok (c : Client) (libNames : GoMap String String) (e : Exporter)
    (b : Bool) (h : c.Sessions.err = none) :
    scrapeSessions c libNames e b
      = (publishRollups (aggregate c.Sessions.all libNames) c.Sessions.all e, b) := by
  unfold scrapeSessions
  simp only [h]

theorem scrapeSessions_err (c : Client) (libNames : GoMap String String) (e : Exporter)
    (b : Bool) (x : Error) (h : c.Sessions.err = some x) :
    scrapeSessions c libNames e b = (e, false) := by
  unfold scrapeSessions
  simp only [h]

theorem scrapeSessions_libItems (c : Client) (libNames : GoMap String String) (e : Exporter)
    (b : Bool) :
    (scrapeSessions c libNames e b).1.libItems = e.libItems ∧
      (scrapeSessions c libNames e b).1.up = e.up ∧
      (scrapeSessions c libNames e b).1.lastSuccess = e.lastSuccess ∧
      (scrapeSessions c libNames e b).2 = (b && c.Sessions.err.isNone) := by
  cases h : c.Sessions.err with
  | none =>
    rw [scrapeSessions_ok c libNames e b h]
    simp [publishRollups]
  | some x =>
    rw [scrapeSessions_err c libNames e b x h]
    simp

theorem Scrape_dimensions (c : Client) (clock : Clock) (e : Exporter) :
    (Exporter.Scrape c clock e).dimensions
        = (scrapeSessions c c.libNames e true).1.dimensions ∧
      (Exporter.Scrape c clock e).sessionsTotal
        = (scrapeSessions c c.libNames e true).1.sessionsTotal := by
  have hu := scrapeUsers_dimensions c { e with up := 0, lastSuccess := 0 } true
  have hl := scrapeLibraries_dimensions c
    (scrapeUsers c { e with up := 0, lastSuccess := 0 } true).1
    (scrapeUsers c { e with up := 0, lastSuccess := 0 } true).2
  have hn := scrapeLibraries_libNames c
    (scrapeUsers c { e with up := 0, lastSuccess := 0 } true).1
    (scrapeUsers c { e with up := 0, lastSuccess := 0 } true).2
  simp only [Exporter.Scrape, hn]
  cases hs : c.Sessions.err with
  | none =>
    simp only [scrapeSessions_ok c _ _ _ hs]
    constructor
    · split <;> simp [Exporter.dimensions, publishRollups]
    · split <;> simp [publishRollups]
  | some x =>
    simp only [scrapeSessions_err c _ _ _ x hs]
    simp only [Bool.false_eq_true, if_false]
    refine ⟨?_, ?_⟩
    · have := hl.1
      rw [hu.1] at this
      simpa [Exporter.dimensions] using this
    · have := hl.2.1
      rw [hu.2.1] at this
      simpa using this

theorem Scrape_dimensions_ok (c : Client) (clock : Clock) (e : Exporter)
    (h : c.Sessions.err = none) :
    (Exporter.Scrape c clock e).dimensions
        = (publishRollups (aggregate c.Sessions.all c.libNames) c.Sessions.all e).dimensions ∧
      (Exporter.Scrape c clock e).sessionsTotal = (c.Sessions.all.length : ℚ) := by
  have := Scrape_dimensions c clock e
  rw [scrapeSessions_ok c _ _ _ h] at this
  exact ⟨this.1, by rw [this.2]; rfl⟩

theorem Scrape_dimensions_err (c : Client) (clock : Clock) (e : Exporter) (x : Error)
    (h : c.Sessions.err = some x) :
    (Exporter.Scrape c clock e).dimensions = e.dimensions ∧
      (Exporter.Scrape c clock e).sessionsTotal = e.sessionsTotal := by
  have := Scrape_dimensions c clock e
  rw [scrapeSessions_err c _ _ _ x h] at this
  exact this

theorem Scrape_success (c : Client) (clock : Clock) (e : Exporter) :
    (Exporter.Scrape c clock e).up = (if c.allSucceeded = true then 1 else 0) ∧
      (Exporter.Scrape c clock e).lastSuccess = (if c.allSucceeded = true then 1 else 0) := by
  have hu := scrapeUsers_dimensions c { e with up := 0, lastSuccess := 0 } true
  have hl := scrapeLibraries_dimensions c
    (scrapeUsers c { e with up := 0, lastSuccess := 0 } true).1
    (scrapeUsers c { e with up := 0, lastSuccess := 0 } true).2
  have hs := scrapeSessions_libItems c
    (scrapeLibraries c (scrapeUsers c { e with up := 0, lastSuccess := 0 } true).1
      (scrapeUsers c { e with up := 0, lastSuccess := 0 } true).2).2.1
    (scrapeLibraries c (scrapeUsers c { e with up := 0, lastSuccess := 0 } true).1
      (scrapeUsers c { e with up := 0, lastSuccess := 0 } true).2).1
    (scrapeLibraries c (scrapeUsers c { e with up := 0, lastSuccess := 0 } true).1
      (scrapeUsers c { e with up := 0, lastSuccess := 0 } true).2).2.2
  have hall : c.allSucceeded = (scrapeSessions c
      (scrapeLibraries c (scrapeUsers c { e with up := 0, lastSuccess := 0 } true).1
        (scrapeUsers c { e with up := 0, lastSuccess := 0 } true).2).2.1
      (scrapeLibraries c (scrapeUsers c { e with up := 0, lastSuccess := 0 } true).1
        (scrapeUsers c { e with up := 0, lastSuccess := 0 } true).2).1
      (scrapeLibraries c (scrapeUsers c { e with up := 0, lastSuccess := 0 } true).1
        (scrapeUsers c { e with up := 0, lastSuccess := 0 } true).2).2.2).2 := by
    rw [hs.2.2.2, hl.2.2.2.2, hu.2.2.2.2.2]
    simp [Client.allSucceeded]
  have hup := hs.2.1
  rw [hl.2.2.1, hu.2.2.2.1] at hup
  have hls := hs.2.2.1
  rw [hl.2.2.2.1, hu.2.2.2.2.1] at hls
  simp only [Exporter.Scrape]
  rw [hall]
  constructor
  · split
    · rfl
    · exact hup
  · split
    · rfl
    · exact hls

theorem Scrape_libItems (c : Client) (clock : Clock) (e : Exporter) (libs : List Library)
    (h : c.Libraries = .ok libs) (p : String × String) :
    GoMap.get? (Exporter.Scrape c clock e).libItems p
        = expectedItems float64OfInt c.LibraryDetail libs p ∧
      (libs = [] → (Exporter.Scrape c clock e).libItems = []) := by
  have hs := scrapeSessions_libItems c
    (scrapeLibraries c (scrapeUsers c { e with up := 0, lastSuccess := 0 } true).1
      (scrapeUsers c { e with up := 0, lastSuccess := 0 } true).2).2.1
    (scrapeLibraries c (scrapeUsers c { e with up := 0, lastSuccess := 0 } true).1
      (scrapeUsers c { e with up := 0, lastSuccess := 0 } true).2).1
    (scrapeLibraries c (scrapeUsers c { e with up := 0, lastSuccess := 0 } true).1
      (scrapeUsers c { e with up := 0, lastSuccess := 0 } true).2).2.2
  have hi := hs.1
  rw [scrapeLibraries_libItems c _ _ libs h] at hi
  have e1 : (Exporter.Scrape c clock e).libItems
      = (libsLoop c.LibraryDetail libs 0
          ⟨[], [], (scrapeUsers c { e with up := 0, lastSuccess := 0 } true).2⟩).libItems := by
    rw [← hi]
    simp only [Exporter.Scrape]
    split <;> rfl
  rw [e1]
  constructor
  · rw [libsLoop_libItems]
    simp [expectedItems, GoMap.get?, Option.or_none]
  · intro hnil
    rw [hnil]
    rfl

/-! ## The pagination loop -/

theorem sessionsLoop_error (get : Nat → Except Error SessionsResponse) (page : Nat)
    (all : List Session) (requests : List Nat) (err : Error) (h : get page = .error err) :
    Client.sessionsLoop get page all requests = ⟨all, some err, requests ++ [page]⟩ := by
  rw [Client.sessionsLoop, h]

theorem sessionsLoop_stop (get : Nat → Except Error SessionsResponse) (page : Nat)
    (all : List Session) (requests : List Nat) (resp : SessionsResponse)
    (h : get page = .ok resp)
    (hstop : ((page + 1 : Nat) : Int) ≥ resp.NumPages ∨ page + 1 > 200) :
    Client.sessionsLoop get page all requests
      = ⟨all ++ resp.Sessions, none, requests ++ [page]⟩ := by
  rw [Client.sessionsLoop, h]
  simp only
  by_cases h1 : ((page + 1 : Nat) : Int) ≥ resp.NumPages
  · rw [if_pos h1]
  · rw [if_neg h1]
    have h2 : page + 1 > 200 := hstop.resolve_left h1
    rw [dif_pos h2]

theorem sessionsLoop_next (get : Nat → Except Error SessionsResponse) (page : Nat)
    (all : List Session) (requests : List Nat) (resp : SessionsResponse)
    (h : get page = .ok resp) (h1 : ((page + 1 : Nat) : Int) < resp.NumPages)
    (h2 : page + 1 ≤ 200) :
    Client.sessionsLoop get page all requests
      = Client.sessionsLoop get (page + 1) (all ++ resp.Sessions) (requests ++ [page]) := by
  rw [Client.sessionsLoop, h]
  simp only
  rw [if_neg (by omega), dif_neg (by omega)]

/-- While every page from `page` up to `k` makes the loop go on, the loop
reaches page `k` with the sessions of the pages before it. -/
theorem sessionsLoop_reach (c : Client) (d : Nat) :
    ∀ (page : Nat) (all : List Session) (requests : List Nat),
      (∀ j, page ≤ j → j < page + d →
        ∃ resp, c.sessionsPage j = .ok resp ∧ ((j + 1 : Nat) : Int) < resp.NumPages ∧
          j + 1 ≤ 200) →
      Client.sessionsLoop c.sessionsPage page all requests =
        Client.sessionsLoop c.sessionsPage (page + d)
          (all ++ (List.range' page d).flatMap c.pageSessions)
          (requests ++ List.range' page d) := by
  induction d with
  | zero => intro page all requests _; simp
  | succ d ih =>
    intro page all requests h
    obtain ⟨resp, hr, h1, h2⟩ := h page (Nat.le_refl _) (by omega)
    rw [sessionsLoop_next _ _ _ _ resp hr h1 h2, ih (page + 1)]
    · have hp : c.pageSessions page = resp.Sessions := by simp [Client.pageSessions, hr]
      have e1 : page + 1 + d = page + (d + 1) := by omega
      rw [e1, List.range'_succ, List.flatMap_cons, hp]
      simp
    · intro j hj1 hj2
      exact h j (by omega) (by omega)

theorem sessionsLoop_length (get : Nat → Except Error SessionsResponse) (d : Nat) :
    ∀ (page : Nat) (all : List Session) (requests : List Nat), 200 - page ≤ d →
      (Client.sessionsLoop get page all requests).requests.length
        ≤ requests.length + d + 1 := by
  induction d with
  | zero =>
    intro page all requests hd
    cases h : get page with
    | error err =>
      rw [sessionsLoop_error _ _ _ _ err h]
      simp
    | ok resp =>
      rw [sessionsLoop_stop _ _ _ _ resp h]
      · simp
      · by_cases h1 : ((page + 1 : Nat) : Int) ≥ resp.NumPages
        · exact Or.inl h1
        · exact Or.inr (by omega)
  | succ d ih =>
    intro page all requests hd
    cases h : get page with
    | error err =>
      rw [sessionsLoop_error _ _ _ _ err h]
      simp
    | ok resp =>
      by_cases hstop : ((page + 1 : Nat) : Int) ≥ resp.NumPages ∨ page + 1 > 200
      · rw [sessionsLoop_stop _ _ _ _ resp h hstop]
        simp
      · rw [not_or] at hstop
        rw [sessionsLoop_next _ _ _ _ resp h (by omega) (by omega)]
        have := ih (page + 1) (all ++ resp.Sessions) (requests ++ [page]) (by omega)
        simp only [List.length_append, List.length_singleton] at this
        omega

theorem range_append_singleton (k : Nat) : List.range' 0 k ++ [k] = List.range (k + 1) := by
  rw [List.range_succ, List.range_eq_range']

theorem bind_range_succ (c : Client) (k : Nat) :
    (List.range' 0 k).flatMap c.pageSessions ++ c.pageSessions k
      = (List.range (k + 1)).flatMap c.pageSessions := by
  rw [List.range_succ, List.range_eq_range', List.flatMap_append]
  simp

/-! ## The published series in terms of the sessions -/

theorem libraryKey_form (libNames : GoMap String String) (ss : List Session) :
    ∀ s ∈ ss, included s = true →
      ∃ a b : String, libraryKey libNames s = a ++ "||" ++ b :=
  fun s _ _ => ⟨libID s, libName libNames s, rfl⟩

theorem publish_library (libNames : GoMap String String) (val : Session → ℚ)
    (ss : List Session) :
    publish (fun key => splitOnce key "||") (accumulate (libraryKey libNames) val ss []) []
      = accumulate (fun s => splitOnce (libraryKey libNames s) "||") val ss [] :=
  publish_accumulate (fun key => splitOnce key "||")
    (fun k => ∃ a b : String, k = a ++ "||" ++ b)
    (fun a b ha hb h => splitOnce_injOn "||" a b ha hb h)
    (libraryKey libNames) val ss (libraryKey_form libNames ss)

/-- After a cycle whose sessions fetch succeeds, each of the seven series is the
rollup of the fetched sessions under the published labels. -/
theorem Scrape_series (c : Client) (clock : Clock) (e : Exporter)
    (h : c.Sessions.err = none) :
    (Exporter.Scrape c clock e).dimensions =
      (accumulate username (fun s => s.TimeListening) c.Sessions.all [],
        accumulate username (fun _ => 1) c.Sessions.all [],
        accumulate (fun s => splitOnce (libraryKey c.libNames s) "||")
          (fun s => s.TimeListening) c.Sessions.all [],
        accumulate (fun s => splitOnce (libraryKey c.libNames s) "||")
          (fun _ => 1) c.Sessions.all [],
        accumulate title (fun s => s.TimeListening) c.Sessions.all [],
        accumulate clientModel (fun s => s.TimeListening) c.Sessions.all [],
        accumulate day (fun s => s.TimeListening) c.Sessions.all []) := by
  rw [(Scrape_dimensions_ok c clock e h).1]
  simp only [Exporter.dimensions, publishRollups, aggregate_eq, publish_id_accumulate,
    publish_library]

theorem publishRollups_dimensions (r : Rollups) (ss ss' : List Session) (e e' : Exporter) :
    (publishRollups r ss e).dimensions = (publishRollups r ss' e').dimensions := rfl

/-! ## The claims -/

/-- C1: for every cycle whose sessions fetch succeeds, the sessions with
`timeListening <= 0` contribute to none of the seven rollups: the rollups
computed from the fetched list are those computed from the list without these
sessions, for every library lookup, and so are the seven published series;
the published total session count is the length of the whole fetched list. -/
theorem scrape_ignores_unlistened (c : Client) (clock : Clock) (e : Exporter)
    (h : c.Sessions.err = none) :
    (∀ libNames : GoMap String String,
        aggregate c.Sessions.all libNames
          = aggregate (c.Sessions.all.filter included) libNames) ∧
      (Exporter.Scrape c clock e).dimensions =
        (publishRollups (aggregate (c.Sessions.all.filter included) c.libNames)
          (c.Sessions.all.filter included) e).dimensions ∧
      (Exporter.Scrape c clock e).sessionsTotal = (c.Sessions.all.length : ℚ) := by
  refine ⟨fun libNames => (aggregate_filter libNames _).symm, ?_,
    (Scrape_dimensions_ok c clock e h).2⟩
  rw [(Scrape_dimensions_ok c clock e h).1, aggregate_filter]
  exact publishRollups_dimensions _ _ _ _ _

/-- C1, at the example of the specification: alice's 120 seconds on Monday are
published, bob's session without listening time appears in no series, and the
total session count is 2. -/
theorem scrape_ignores_unlistened_witness :
    aliceBobClient.Sessions.err = none ∧
      (Exporter.Scrape aliceBobClient sampleClock earlierSink).userListeningSeconds
        = [("alice", 120)] ∧
      (Exporter.Scrape aliceBobClient sampleClock earlierSink).weekdayListeningSeconds
        = [("Mon", 120)] ∧
      (Exporter.Scrape aliceBobClient sampleClock earlierSink).sessionsTotal = 2 ∧
      (Exporter.Scrape aliceBobClient sampleClock earlierSink).dimensions =
        (publishRollups
          (aggregate (aliceBobClient.Sessions.all.filter included) aliceBobClient.libNames)
          (aliceBobClient.Sessions.all.filter included) earlierSink).dimensions :=
  ⟨by decide!, by decide!, by decide!, by decide!,
    (scrape_ignores_unlistened aliceBobClient sampleClock earlierSink (by decide!)).2.1⟩

/-- C2: in exact arithmetic, the values of each of the five seconds series
published by a cycle whose sessions fetch succeeds add up to the sum of
`timeListening` over the included sessions, and so do the values of each of
the five seconds rollups computed from any session list and library lookup. -/
theorem seconds_sums_agree (c : Client) (clock : Clock) (e : Exporter)
    (h : c.Sessions.err = none) :
    (GoMap.total (Exporter.Scrape c clock e).userListeningSeconds
          = includedSeconds c.Sessions.all ∧
        GoMap.total (Exporter.Scrape c clock e).libraryListeningSeconds
          = includedSeconds c.Sessions.all ∧
        GoMap.total (Exporter.Scrape c clock e).bookListeningSeconds
          = includedSeconds c.Sessions.all ∧
        GoMap.total (Exporter.Scrape c clock e).deviceListeningSeconds
          = includedSeconds c.Sessions.all ∧
        GoMap.total (Exporter.Scrape c clock e).weekdayListeningSeconds
          = includedSeconds c.Sessions.all) ∧
      ∀ (ss : List Session) (libNames : GoMap String String),
        GoMap.total (aggregate ss libNames).userListening = includedSeconds ss ∧
          GoMap.total (aggregate ss libNames).libraryListening = includedSeconds ss ∧
          GoMap.total (aggregate ss libNames).bookListening = includedSeconds ss ∧
          GoMap.total (aggregate ss libNames).deviceListening = includedSeconds ss ∧
          GoMap.total (aggregate ss libNames).weekdayListening = includedSeconds ss := by
  have hs := Scrape_series c clock e h
  simp only [Exporter.dimensions, Prod.mk.injEq] at hs
  obtain ⟨h1, _, h3, _, h5, h6, h7⟩ := hs
  refine ⟨⟨?_, ?_, ?_, ?_, ?_⟩, ?_⟩
  · rw [h1, total_accumulate]; simp [GoMap.total]
  · rw [h3, total_accumulate]; simp [GoMap.total]
  · rw [h5, total_accumulate]; simp [GoMap.total]
  · rw [h6, total_accumulate]; simp [GoMap.total]
  · rw [h7, total_accumulate]; simp [GoMap.total]
  · intro ss libNames
    rw [aggregate_eq]
    simp only [total_accumulate]
    simp [GoMap.total]

/-- C2, at the example of the specification: each of the five seconds series
adds up to 120, the listening time of the one included session. -/
theorem seconds_sums_agree_witness :
    aliceBobClient.Sessions.err = none ∧ includedSeconds aliceBobClient.Sessions.all = 120 ∧
      GoMap.total (Exporter.Scrape aliceBobClient sampleClock earlierSink).userListeningSeconds
        = includedSeconds aliceBobClient.Sessions.all ∧
      GoMap.total
          (Exporter.Scrape aliceBobClient sampleClock earlierSink).libraryListeningSeconds
        = includedSeconds aliceBobClient.Sessions.all :=
  ⟨by decide!, by decide!,
    (seconds_sums_agree aliceBobClient sampleClock earlierSink (by decide!)).1.1,
    (seconds_sums_agree aliceBobClient sampleClock earlierSink (by decide!)).1.2.1⟩

/-- C3: against a server that declares the same page count `n` on every
response, `1 <= n <= 200`, `Client.Sessions` requests the pages `0, 1, 2, ...`
in increasing order, each once.  If page `k < n` is the first whose fetch
fails, it stops there, having requested the pages `0..k`, and returns the
sessions of the pages `0..k-1` in request order together with that error; if
the pages `0..n-1` all succeed it stops after page `n-1`, never requesting page
`n`, and returns their sessions in request order with no error. -/
theorem sessions_constant_page_count (c : Client) (n : Nat) (hn1 : 1 ≤ n) (hn : n ≤ 200)
    (hconst : ∀ p resp, c.sessionsPage p = .ok resp → resp.NumPages = (n : Int)) :
    (∀ k err, k < n → (∀ j, j < k → succeeded (c.sessionsPage j) = true) →
        c.sessionsPage k = .error err →
        c.Sessions = ⟨(List.range k).flatMap c.pageSessions, some err, List.range (k + 1)⟩) ∧
      ((∀ j, j < n → succeeded (c.sessionsPage j) = true) →
        c.Sessions = ⟨(List.range n).flatMap c.pageSessions, none, List.range n⟩) := by
  have hgo : ∀ k, k < n → (∀ j, j < k → succeeded (c.sessionsPage j) = true) →
      ∀ j, 0 ≤ j → j < 0 + k →
        ∃ resp, c.sessionsPage j = .ok resp ∧ ((j + 1 : Nat) : Int) < resp.NumPages ∧
          j + 1 ≤ 200 := by
    intro k hk hok j _ hj
    have hj' : j < k := by omega
    have hs := hok j hj'
    cases hr : c.sessionsPage j with
    | error err => simp [hr, succeeded] at hs
    | ok resp =>
      refine ⟨resp, rfl, ?_, by omega⟩
      rw [hconst j resp hr]
      omega
  constructor
  · intro k err hk hok hfail
    unfold Client.Sessions
    rw [sessionsLoop_reach c k 0 [] [] (hgo k hk hok),
      sessionsLoop_error _ _ _ _ err (by simpa using hfail)]
    simp only [List.nil_append, zero_add, range_append_singleton, List.range_eq_range']
  · intro hok
    obtain ⟨m, rfl⟩ : ∃ m, n = m + 1 := ⟨n - 1, by omega⟩
    have hlast := hok m (by omega)
    cases hr : c.sessionsPage m with
    | error err => simp [hr, succeeded] at hlast
    | ok resp =>
      unfold Client.Sessions
      rw [sessionsLoop_reach c m 0 [] [] (hgo m (by omega) (fun j hj => hok j (by omega))),
        sessionsLoop_stop _ _ _ _ resp (by simpa using hr)
          (Or.inl (by rw [hconst m resp hr]; simp))]
      have hp : c.pageSessions m = resp.Sessions := by simp [Client.pageSessions, hr]
      rw [← hp]
      simp only [List.nil_append, zero_add, range_append_singleton, bind_range_succ]

/-- C3, at two servers: one that declares two pages and fails on the second
(the result is the first page's session with the error, after requesting the
pages 0 and 1), and one that declares a single page. -/
theorem sessions_constant_page_count_witness :
    flakyClient.Sessions
        = ⟨[sessionOf "alice" "" "Mon" 120], some "bad status 500", [0, 1]⟩ ∧
      aliceBobClient.Sessions
        = ⟨[sessionOf "alice" "" "Mon" 120, sessionOf "bob" "" "Tue" 0], none, [0]⟩ :=
  ⟨((sessions_constant_page_count flakyClient 2 (by decide) (by decide)
        (fun p resp h => by
          cases p with
          | zero =>
            simp only [flakyClient, Except.ok.injEq] at h
            rw [← h]
            rfl
          | succ p => simp [flakyClient] at h)).1 1 "bad status 500" (by decide)
        (fun j hj => by
          have : j = 0 := by omega
          subst this
          rfl) rfl).trans (by decide!),
    ((sessions_constant_page_count aliceBobClient 1 (by decide) (by decide)
        (fun p resp h => by
          simp only [aliceBobClient, singlePage, Except.ok.injEq] at h
          rw [← h]
          rfl)).2
        (fun j _ => rfl)).trans (by decide!)⟩

/-- C4: against a server that never fails and on every response declares more
pages than have been requested so far, `Client.Sessions` returns without error
after requesting the 201 pages `0..200`: the cap `page > 200` is tested after
`page` has been incremented, so page 200 is still fetched. -/
theorem sessions_cap_requests (c : Client)
    (hmore : ∀ p, ∃ resp, c.sessionsPage p = .ok resp ∧ ((p + 1 : Nat) : Int) < resp.NumPages) :
    c.Sessions.requests = List.range 201 ∧ c.Sessions.requests.length = 201 ∧
      c.Sessions.err = none ∧
      c.Sessions.all = (List.range 201).flatMap c.pageSessions := by
  have hgo : ∀ j, 0 ≤ j → j < 0 + 200 →
      ∃ resp, c.sessionsPage j = .ok resp ∧ ((j + 1 : Nat) : Int) < resp.NumPages ∧
        j + 1 ≤ 200 := by
    intro j _ hj
    obtain ⟨resp, hr, hlt⟩ := hmore j
    exact ⟨resp, hr, hlt, by omega⟩
  obtain ⟨resp, hr, _⟩ := hmore 200
  have hp : c.pageSessions 200 = resp.Sessions := by simp [Client.pageSessions, hr]
  have hrun : c.Sessions
      = ⟨(List.range 201).flatMap c.pageSessions, none, List.range 201⟩ := by
    unfold Client.Sessions
    rw [sessionsLoop_reach c 200 0 [] [] hgo,
      sessionsLoop_stop _ _ _ _ resp (by simpa using hr) (Or.inr (by omega)), ← hp]
    simp only [List.nil_append, zero_add, range_append_singleton, bind_range_succ]
  rw [hrun]
  simp

/-- C4, at a server whose response to page `p` declares `p + 2` pages: 201
requests are issued, the last of them for page 200. -/
theorem sessions_cap_requests_witness :
    greedyClient.Sessions.requests.length = 201 ∧
      greedyClient.Sessions.requests.getLast? = some 200 ∧
      greedyClient.Sessions.err = none :=
  have h := sessions_cap_requests greedyClient
    (fun p => ⟨⟨0, (p : Int) + 2, p, 10, []⟩, rfl, by push_cast; omega⟩)
  ⟨h.2.1, by rw [h.1]; decide, h.2.2.1⟩

/-- Whatever the server does, `Client.Sessions` returns after at most 201 page
requests. -/
theorem sessions_requests_le (c : Client) : c.Sessions.requests.length ≤ 201 := by
  have := sessionsLoop_length c.sessionsPage 200 0 [] [] (by omega)
  simpa [Client.Sessions] using this

/-- C5, as stated, fails: the second page of sessions fails after the first
page delivered one session; the series and the total session count after the
cycle are not those computed from the partial list. -/
theorem partial_sessions_counterexample :
    flakyClient.Sessions.all = [sessionOf "alice" "" "Mon" 120] ∧
      flakyClient.Sessions.err = some "bad status 500" ∧
      (Exporter.Scrape flakyClient sampleClock earlierSink).userListeningSeconds
        = [("carol", 5)] ∧
      (Exporter.Scrape flakyClient sampleClock earlierSink).sessionsTotal = 9 ∧
      ¬ ((Exporter.Scrape flakyClient sampleClock earlierSink).dimensions =
            (publishRollups (aggregate flakyClient.Sessions.all flakyClient.libNames)
              flakyClient.Sessions.all earlierSink).dimensions ∧
          (Exporter.Scrape flakyClient sampleClock earlierSink).sessionsTotal =
            (flakyClient.Sessions.all.length : ℚ)) := by
  refine ⟨by decide!, by decide!, by decide!, by decide!, fun h => ?_⟩
  have h1 : (Exporter.Scrape flakyClient sampleClock earlierSink).userListeningSeconds ≠
      (publishRollups (aggregate flakyClient.Sessions.all flakyClient.libNames)
        flakyClient.Sessions.all earlierSink).userListeningSeconds := by decide!
  exact h1 (congrArg Prod.fst h.1)

/-- C5, amended: when session pagination fails, `Scrape` downgrades the
success flag, so that both gauges are 0, and neither aggregates nor publishes:
the seven per-dimension series and the total session count are what they were
in the sink before the cycle, whatever partial list `Client.Sessions` returned. -/
theorem failed_sessions_keep_series (c : Client) (clock : Clock) (e : Exporter) (err : Error)
    (h : c.Sessions.err = some err) :
    (Exporter.Scrape c clock e).dimensions = e.dimensions ∧
      (Exporter.Scrape c clock e).sessionsTotal = e.sessionsTotal ∧
      (Exporter.Scrape c clock e).up = 0 ∧ (Exporter.Scrape c clock e).lastSuccess = 0 := by
  have hd := Scrape_dimensions_err c clock e err h
  have hs := Scrape_success c clock e
  have hall : ¬ c.allSucceeded = true := by simp [Client.allSucceeded, h]
  rw [if_neg hall] at hs
  exact ⟨hd.1, hd.2, hs.1, hs.2⟩

/-- C5, amended, at the server that fails on its second page. -/
theorem failed_sessions_keep_series_witness :
    flakyClient.Sessions.err = some "bad status 500" ∧
      (Exporter.Scrape flakyClient sampleClock earlierSink).dimensions
        = earlierSink.dimensions ∧
      (Exporter.Scrape flakyClient sampleClock earlierSink).sessionsTotal = 9 ∧
      (Exporter.Scrape flakyClient sampleClock earlierSink).up = 0 :=
  have h := failed_sessions_keep_series flakyClient sampleClock earlierSink
    "bad status 500" (by decide!)
  ⟨by decide!, h.1, h.2.1, h.2.2.1⟩

/-! ## The cycle with the panics of `get` -/

theorem libsLoopRun_returned (newRequest : String → Bool)
    (detail : Nat → String → Except Error LibraryDetail) (libs : List Library) (i : Nat)
    (st st' : LibsState) (h : libsLoopRun newRequest detail libs i st = .returned st') :
    libsLoop detail libs i st = st' := by
  induction libs generalizing i st with
  | nil =>
    simp only [libsLoopRun, Ended.returned.injEq] at h
    simpa [libsLoop] using h
  | cons l libs ih =>
    rw [libsLoopRun] at h
    rw [libsLoop]
    by_cases hn : newRequest ("/api/libraries/" ++ l.ID ++ "/stats") = true
    · simp only [hn, if_true] at h
      cases hd : detail i l.ID with
      | error err =>
        rw [hd] at h
        exact ih _ _ h
      | ok d =>
        rw [hd] at h
        exact ih _ _ h
    · simp [hn] at h

theorem libsLoopRun_of_newRequest (newRequest : String → Bool)
    (hall : ∀ path, newRequest path = true)
    (detail : Nat → String → Except Error LibraryDetail) (libs : List Library) (i : Nat)
    (st : LibsState) :
    libsLoopRun newRequest detail libs i st = .returned (libsLoop detail libs i st) := by
  induction libs generalizing i st with
  | nil => rfl
  | cons l libs ih =>
    rw [libsLoopRun, libsLoop]
    simp only [hall, if_true]
    cases hd : detail i l.ID with
    | error err => exact ih _ _
    | ok d => exact ih _ _

theorem sessionsLoopRun_some (newRequest : String → Bool)
    (get : Nat → Except Error SessionsResponse) (d : Nat) :
    ∀ (page : Nat) (all : List Session) (requests : List Nat) (run : SessionsRun),
      201 - page ≤ d →
      Client.sessionsLoopRun newRequest get page all requests = some run →
      Client.sessionsLoop get page all requests = run := by
  induction d with
  | zero =>
    intro page all requests run hd h
    rw [Client.sessionsLoopRun] at h
    rw [Client.sessionsLoop]
    by_cases hn : newRequest ("/api/sessions?page=" ++ toString page) = true
    · simp only [hn, if_true] at h
      cases hg : get page with
      | error err =>
        rw [hg] at h
        simpa using h
      | ok resp =>
        rw [hg] at h
        simp only at h ⊢
        by_cases h1 : ((page + 1 : Nat) : Int) ≥ resp.NumPages
        · rw [if_pos h1] at h ⊢
          simpa using h
        · rw [if_neg h1, dif_pos (by omega)] at h
          rw [if_neg h1, dif_pos (by omega)]
          simpa using h
    · simp [hn] at h
  | succ d ih =>
    intro page all requests run hd h
    rw [Client.sessionsLoopRun] at h
    rw [Client.sessionsLoop]
    by_cases hn : newRequest ("/api/sessions?page=" ++ toString page) = true
    · simp only [hn, if_true] at h
      cases hg : get page with
      | error err =>
        rw [hg] at h
        simpa using h
      | ok resp =>
        rw [hg] at h
        simp only at h ⊢
        by_cases h1 : ((page + 1 : Nat) : Int) ≥ resp.NumPages
        · rw [if_pos h1] at h ⊢
          simpa using h
        · by_cases h2 : page + 1 > 200
          · rw [if_neg h1, dif_pos h2] at h
            rw [if_neg h1, dif_pos h2]
            simpa using h
          · rw [if_neg h1, dif_neg h2] at h
            rw [if_neg h1, dif_neg h2]
            exact ih _ _ _ _ (by omega) h
    · simp [hn] at h

theorem sessionsLoopRun_of_newRequest (newRequest : String → Bool)
    (hall : ∀ path, newRequest path = true)
    (get : Nat → Except Error SessionsResponse) (d : Nat) :
    ∀ (page : Nat) (all : List Session) (requests : List Nat), 201 - page ≤ d →
      Client.sessionsLoopRun newRequest get page all requests
        = some (Client.sessionsLoop get page all requests) := by
  induction d with
  | zero =>
    intro page all requests hd
    rw [Client.sessionsLoopRun, Client.sessionsLoop]
    simp only [hall, if_true]
    cases hg : get page with
    | error err => rfl
    | ok resp =>
      simp only
      by_cases h1 : ((page + 1 : Nat) : Int) ≥ resp.NumPages
      · rw [if_pos h1, if_pos h1]
      · rw [if_neg h1, if_neg h1, dif_pos (by omega), dif_pos (by omega)]
  | succ d ih =>
    intro page all requests hd
    rw [Client.sessionsLoopRun, Client.sessionsLoop]
    simp only [hall, if_true]
    cases hg : get page with
    | error err => rfl
    | ok resp =>
      simp only
      by_cases h1 : ((page + 1 : Nat) : Int) ≥ resp.NumPages
      · rw [if_pos h1, if_pos h1]
      · by_cases h2 : page + 1 > 200
        · rw [if_neg h1, if_neg h1, dif_pos h2, dif_pos h2]
        · rw [if_neg h1, if_neg h1, dif_neg h2, dif_neg h2]
          exact ih _ _ _ (by omega)

theorem scrapeLibrariesRun_returned (newRequest : String → Bool) (c : Client) (e : Exporter)
    (b : Bool) (l : Exporter × GoMap String String × Bool)
    (h : scrapeLibrariesRun newRequest c e b = .returned l) : scrapeLibraries c e b = l := by
  unfold scrapeLibrariesRun at h
  unfold scrapeLibraries
  by_cases hn : newRequest "/api/libraries" = true
  · simp only [hn, if_true] at h
    cases hl : c.Libraries with
    | error err =>
      rw [hl] at h
      simpa using h
    | ok libs =>
      rw [hl] at h
      simp only at h ⊢
      cases hr : libsLoopRun newRequest c.LibraryDetail libs 0 ⟨[], [], b⟩ with
      | returned st =>
        rw [hr] at h
        rw [libsLoopRun_returned newRequest _ _ _ _ _ hr]
        simpa using h
      | panicked st =>
        rw [hr] at h
        simp at h
  · simp [hn] at h

theorem scrapeSessions_eq (c : Client) (libNames : GoMap String String) (e : Exporter)
    (b : Bool) : scrapeSessions c libNames e b = publishSessions c.Sessions libNames e b := rfl

/-- When `Scrape` returns, the sink holds what the cycle without panics
computes. -/
theorem ScrapeRun_returned (newRequest : String → Bool) (c : Client) (clock : Clock)
    (e e' : Exporter) (h : Exporter.ScrapeRun newRequest c clock e = .returned e') :
    Exporter.Scrape c clock e = e' := by
  unfold Exporter.ScrapeRun at h
  by_cases hn : newRequest "/api/users" = true
  · simp only [hn, if_true] at h
    cases hl : scrapeLibrariesRun newRequest c
        (scrapeUsers c { e with up := 0, lastSuccess := 0 } true).1
        (scrapeUsers c { e with up := 0, lastSuccess := 0 } true).2 with
    | panicked l =>
      rw [hl] at h
      simp at h
    | returned l =>
      rw [hl] at h
      have hl' := scrapeLibrariesRun_returned newRequest c _ _ l hl
      cases hs : Client.sessionsLoopRun newRequest c.sessionsPage 0 [] [] with
      | none =>
        rw [hs] at h
        simp at h
      | some run =>
        rw [hs] at h
        have hs' : c.Sessions = run :=
          sessionsLoopRun_some newRequest c.sessionsPage 201 0 [] [] run (by omega) hs
        simp only [Ended.returned.injEq] at h
        rw [← h, ← hs', ← hl']
        rfl
  · simp [hn] at h

/-- When every request can be built, `Scrape` returns. -/
theorem ScrapeRun_of_newRequest (newRequest : String → Bool)
    (hall : ∀ path, newRequest path = true) (c : Client) (clock : Clock) (e : Exporter) :
    Exporter.ScrapeRun newRequest c clock e = .returned (Exporter.Scrape c clock e) := by
  have hl : ∀ (e : Exporter) (b : Bool),
      scrapeLibrariesRun newRequest c e b = .returned (scrapeLibraries c e b) := by
    intro e b
    unfold scrapeLibrariesRun scrapeLibraries
    simp only [hall, if_true]
    cases c.Libraries with
    | error err => rfl
    | ok libs =>
      simp only
      rw [libsLoopRun_of_newRequest newRequest hall]
  have hs : Client.sessionsLoopRun newRequest c.sessionsPage 0 [] [] = some c.Sessions :=
    sessionsLoopRun_of_newRequest newRequest hall c.sessionsPage 201 0 [] [] (by omega)
  unfold Exporter.ScrapeRun
  simp only [hall, if_true, hl, hs]
  rfl

theorem bitLength_le (fuel : Nat) : ∀ n k : Nat, n < 2 ^ k → bitLength fuel n ≤ k := by
  induction fuel with
  | zero => intro n k _; simp [bitLength]
  | succ fuel ih =>
    intro n k h
    rw [bitLength]
    by_cases h0 : n = 0
    · simp [h0]
    · rw [if_neg h0]
      cases k with
      | zero =>
        simp at h
        exact absurd h h0
      | succ k =>
        have h2 : n / 2 < 2 ^ k := by
          rw [Nat.div_lt_iff_lt_mul (by decide)]
          rw [Nat.pow_succ] at h
          exact h
        have := ih (n / 2) k h2
        omega

theorem float64OfNat_exact (n : Nat) (h : n ≤ 2 ^ 53) : float64OfNat n = n := by
  have hdvd : 2 ^ (bitLength n n - 53) ∣ n := by
    rcases Nat.lt_or_eq_of_le h with hlt | heq
    · have hb := bitLength_le n n 53 hlt
      have hdrop : bitLength n n - 53 = 0 := by omega
      rw [hdrop]
      simp
    · have hb := bitLength_le n n 54 (by rw [heq]; decide)
      have hdrop : bitLength n n - 53 ≤ 1 := by omega
      have h1 : 2 ^ (bitLength n n - 53) ∣ 2 ^ 1 := Nat.pow_dvd_pow 2 hdrop
      have h2 : 2 ^ 1 ∣ n := by
        rw [heq]
        exact Nat.pow_dvd_pow 2 (by decide)
      exact Nat.dvd_trans h1 h2
  have hr : n % 2 ^ (bitLength n n - 53) = 0 := Nat.mod_eq_zero_of_dvd hdvd
  have hpos : 0 < 2 ^ (bitLength n n - 53) := Nat.two_pow_pos _
  unfold float64OfNat
  simp only [hr, Nat.mul_zero]
  rw [if_neg (by omega)]
  exact Nat.div_mul_cancel hdvd

theorem float64OfInt_exact (n : Int) (h : n.natAbs ≤ 2 ^ 53) :
    float64OfInt n = exactItems n := by
  unfold float64OfInt exactItems
  rw [float64OfNat_exact n.natAbs h, Nat.cast_natAbs, Int.cast_abs]
  by_cases hn : n < 0
  · have hq : (n : ℚ) < 0 := by exact_mod_cast hn
    rw [if_pos hn, abs_of_neg hq]
    simp
  · have hq : (0 : ℚ) ≤ n := by exact_mod_cast (not_lt.mp hn)
    rw [if_neg hn, abs_of_nonneg hq]

/-- C6, as stated, fails in two ways.  With a fetched library whose identifier
is `%zz` the request of its detail fetch cannot be built, `get` panics and the
cycle never returns: the item count of the library after it is not published,
although its detail fetch would succeed.  With `totalItems = 2^53 + 1` the
series shows `2^53`, the nearest `float64`, not `totalItems`. -/
theorem library_items_counterexample :
    (badIdClient.Libraries
          = .ok [⟨"L1", "Fiction"⟩, ⟨"%zz", "Podcasts"⟩, ⟨"L3", "History"⟩] ∧
        succeeded (badIdClient.LibraryDetail 2 "L3") = true ∧
        escapedRequest "/api/libraries/%zz/stats" = false ∧
        Exporter.ScrapeRun escapedRequest badIdClient sampleClock earlierSink
          = .panicked
            { earlierSink with
              up := 0, lastSuccess := 0, users := 1, libItems := [(("L1", "Fiction"), 10)] } ∧
        ¬ ∃ e', Exporter.ScrapeRun escapedRequest badIdClient sampleClock earlierSink
          = .returned e') ∧
      (hugeLibraryClient.Libraries = .ok [⟨"L1", "Fiction"⟩] ∧
        Exporter.ScrapeRun escapedRequest hugeLibraryClient sampleClock earlierSink
          = .returned (Exporter.Scrape hugeLibraryClient sampleClock earlierSink) ∧
        (Exporter.Scrape hugeLibraryClient sampleClock earlierSink).libItems
          = [(("L1", "Fiction"), 9007199254740992)] ∧
        ¬ ∀ p, GoMap.get? (Exporter.Scrape hugeLibraryClient sampleClock earlierSink).libItems p
            = expectedItems exactItems hugeLibraryClient.LibraryDetail [⟨"L1", "Fiction"⟩] p) := by
  have hp : Exporter.ScrapeRun escapedRequest badIdClient sampleClock earlierSink
      = .panicked
        { earlierSink with
          up := 0, lastSuccess := 0, users := 1, libItems := [(("L1", "Fiction"), 10)] } := by
    decide!
  refine ⟨⟨rfl, by decide!, by decide, hp, ?_⟩, ⟨rfl, by decide!, by decide!, ?_⟩⟩
  · rintro ⟨e', he⟩
    rw [hp] at he
    cases he
  · intro hall
    exact absurd (hall ("L1", "Fiction")) (by decide!)

/-- C6, amended: in a cycle that returns, no call of `get` having panicked on a
request that cannot be built, and whose libraries fetch succeeds, whatever the
sink held before, the item-count series shows under each label pair the value
`float64(totalItems)` of the last fetched library with that pair whose detail
fetch succeeded, and nothing under any other pair; its labels are exactly the
pairs of the libraries whose detail fetch succeeded, a detail fetch that
returns an error leaving the other libraries in place, and it is empty when no
library was fetched.  `float64(totalItems)` is `totalItems` itself when
`|totalItems| <= 2^53`. -/
theorem library_items_amended (newRequest : String → Bool) (c : Client) (clock : Clock)
    (e e' : Exporter) (libs : List Library) (h : c.Libraries = .ok libs)
    (hret : Exporter.ScrapeRun newRequest c clock e = .returned e') :
    (∀ p, GoMap.get? e'.libItems p = expectedItems float64OfInt c.LibraryDetail libs p) ∧
      (∀ p, p ∈ GoMap.keys e'.libItems ↔
        p ∈ (detailSuccesses float64OfInt c.LibraryDetail libs 0).map Prod.fst) ∧
      (libs = [] → e'.libItems = []) ∧
      (∀ n : Int, n.natAbs ≤ 2 ^ 53 → float64OfInt n = exactItems n) := by
  have he := ScrapeRun_returned newRequest c clock e e' hret
  subst he
  refine ⟨fun p => (Scrape_libItems c clock e libs h p).1, fun p => ?_,
    (Scrape_libItems c clock e libs h ("", "")).2, float64OfInt_exact⟩
  have h1 := (Scrape_libItems c clock e libs h p).1
  have h2 := GoMap.get?_eq_none_iff (Exporter.Scrape c clock e).libItems p
  rw [h1] at h2
  have h3 : expectedItems float64OfInt c.LibraryDetail libs p = none ↔
      p ∉ (detailSuccesses float64OfInt c.LibraryDetail libs 0).map Prod.fst := by
    simp only [expectedItems, Option.map_eq_none', List.getLast?_eq_none_iff,
      List.filter_eq_nil_iff, decide_eq_true_eq, List.mem_map, not_exists, not_and]
  rw [h3] at h2
  exact not_iff_not.mp h2.symm

/-- C6, amended, at three libraries of which the second has a detail fetch that
returns an error: the cycle returns, and the other two item counts replace the
earlier content of the series. -/
theorem library_items_amended_witness :
    threeLibrariesClient.Libraries
        = .ok [⟨"L1", "Fiction"⟩, ⟨"L2", "Podcasts"⟩, ⟨"L3", "History"⟩] ∧
      Exporter.ScrapeRun escapedRequest threeLibrariesClient sampleClock earlierSink
        = .returned (Exporter.Scrape threeLibrariesClient sampleClock earlierSink) ∧
      (Exporter.Scrape threeLibrariesClient sampleClock earlierSink).libItems
        = [(("L1", "Fiction"), 10), (("L3", "History"), 30)] ∧
      GoMap.get? (Exporter.Scrape threeLibrariesClient sampleClock earlierSink).libItems
          ("L3", "History")
        = expectedItems float64OfInt threeLibrariesClient.LibraryDetail
            [⟨"L1", "Fiction"⟩, ⟨"L2", "Podcasts"⟩, ⟨"L3", "History"⟩] ("L3", "History") :=
  ⟨rfl, by decide!, by decide!,
    (library_items_amended escapedRequest threeLibrariesClient sampleClock earlierSink
      (Exporter.Scrape threeLibrariesClient sampleClock earlierSink) _ rfl (by decide!)).1
      ("L3", "History")⟩

/-- C7: after a cycle, whatever the sink held before, the availability gauge
and the last-scrape-success gauge are both 1 exactly when the users fetch, the
libraries fetch, every detail fetch and the sessions fetch all succeeded, and
both 0 otherwise. -/
theorem gauges_reflect_success (c : Client) (clock : Clock) (e : Exporter) :
    (((Exporter.Scrape c clock e).up = 1 ∧ (Exporter.Scrape c clock e).lastSuccess = 1)
        ↔ c.allSucceeded = true) ∧
      (c.allSucceeded = false →
        (Exporter.Scrape c clock e).up = 0 ∧ (Exporter.Scrape c clock e).lastSuccess = 0) := by
  have hs := Scrape_success c clock e
  cases hall : c.allSucceeded with
  | true =>
    rw [hall] at hs
    simp only [if_true] at hs
    simp [hs.1, hs.2]
  | false =>
    rw [hall] at hs
    simp only [Bool.false_eq_true, if_false] at hs
    simp [hs.1, hs.2]

/-- C7, at the example of the specification: of three libraries the detail
fetch of one fails and everything else succeeds, so both gauges are 0 although
they were 1 before; when that fetch succeeds too, both are 1. -/
theorem gauges_reflect_success_witness :
    threeLibrariesClient.allSucceeded = false ∧
      (Exporter.Scrape threeLibrariesClient sampleClock earlierSink).up = 0 ∧
      (Exporter.Scrape threeLibrariesClient sampleClock earlierSink).lastSuccess = 0 ∧
      (Exporter.Scrape healthyClient sampleClock emptySink).up = 1 ∧
      (Exporter.Scrape healthyClient sampleClock emptySink).lastSuccess = 1 :=
  have h := (gauges_reflect_success threeLibrariesClient sampleClock earlierSink).2
    (by decide!)
  have h' := (gauges_reflect_success healthyClient sampleClock emptySink).1.2 (by decide!)
  ⟨by decide!, h.1, h.2, h'.1, h'.2⟩

/-- C8, as stated, fails in two ways.  With library `a||b` not fetched and
library `a` fetched under the name `b||a||b`, two sessions with different
library-keys are merged into one series, whose label pair is the key of only
one of them.  With a library fetched under an empty name, the series carries
the identifier as the name, not the empty name. -/
theorem library_series_counterexample :
    (barClient.Sessions.err = none ∧
        (Exporter.Scrape barClient sampleClock emptySink).libraryListeningSeconds
          = [(("a", "b||a||b"), 3)] ∧
        ¬ ∀ p, GoMap.get? (Exporter.Scrape barClient sampleClock emptySink).libraryListeningSeconds p
            = bucketSeconds (libraryKeySpec barClient.fetchedLibraries)
                barClient.Sessions.all p) ∧
      (unnamedLibraryClient.Sessions.err = none ∧
        (Exporter.Scrape unnamedLibraryClient sampleClock emptySink).libraryListeningSeconds
          = [(("L1", "L1"), 1)] ∧
        ¬ ∀ p,
          GoMap.get?
              (Exporter.Scrape unnamedLibraryClient sampleClock emptySink).libraryListeningSeconds p
            = bucketSeconds (libraryKeySpec unnamedLibraryClient.fetchedLibraries)
                unnamedLibraryClient.Sessions.all p) :=
  ⟨⟨by decide!, by decide!, fun h => absurd (h ("a||b", "a||b")) (by decide!)⟩,
    ⟨by decide!, by decide!, fun h => absurd (h ("L1", "")) (by decide!)⟩⟩

theorem barSafe_libID (s : Session) (h : barSafe s.LibraryID = true) :
    barSafe (libID s) = true := by
  unfold libID
  by_cases he : s.LibraryID = ""
  · rw [if_pos he]
    decide
  · rw [if_neg he]
    exact h

/-- C8, amended: in a cycle whose sessions fetch succeeds, provided no included
session has a `libraryId` that contains `"||"` or ends in `"|"`, the per-library
seconds and count series show under each label pair the sum of
`timeListening`, respectively the number, of the included sessions whose
library-key is that pair, and nothing under a pair that is the library-key of
no included session.  The library-key is `(id, name)` with `id` the
`libraryId`, or `"unknown"` when it is empty, and `name` the name of the last
fetched library with that identifier when that name is non-empty, else `id`. -/
theorem library_series_amended (c : Client) (clock : Clock) (e : Exporter)
    (h : c.Sessions.err = none)
    (hsafe : ∀ s ∈ c.Sessions.all, included s = true → barSafe s.LibraryID = true)
    (p : String × String) :
    GoMap.get? (Exporter.Scrape c clock e).libraryListeningSeconds p
        = bucketSeconds (libraryKeyAmended c.fetchedLibraries) c.Sessions.all p ∧
      GoMap.get? (Exporter.Scrape c clock e).librarySessionsTotal p
        = bucketCount (libraryKeyAmended c.fetchedLibraries) c.Sessions.all p := by
  have hs := Scrape_series c clock e h
  simp only [Exporter.dimensions, Prod.mk.injEq] at hs
  obtain ⟨_, _, h3, h4, _, _, _⟩ := hs
  have hkey : ∀ s ∈ c.Sessions.all, included s = true →
      splitOnce (libraryKey c.libNames s) "||" = libraryKeyAmended c.fetchedLibraries s := by
    intro s hs hi
    unfold libraryKey
    rw [splitOnce_barSafe _ _ (barSafe_libID s (hsafe s hs hi)), libName_eq]
  rw [h3, h4, accumulate_congr _ _ _ _ _ hkey, accumulate_congr _ _ _ _ _ hkey]
  exact ⟨get?_accumulate_seconds _ _ p, get?_accumulate_count _ _ p⟩

/-- C8, amended, at sessions in a named library, in a library with an empty
name, in a library that was not fetched and with no library at all. -/
theorem library_series_amended_witness :
    librariesClient.Sessions.err = none ∧
      (∀ s ∈ librariesClient.Sessions.all, included s = true → barSafe s.LibraryID = true) ∧
      GoMap.get? (Exporter.Scrape librariesClient sampleClock earlierSink).libraryListeningSeconds
          ("L1", "Fiction") = some (21 / 2) ∧
      GoMap.get? (Exporter.Scrape librariesClient sampleClock earlierSink).librarySessionsTotal
          ("L2", "L2") = some 1 ∧
      GoMap.get? (Exporter.Scrape librariesClient sampleClock earlierSink).libraryListeningSeconds
          ("unknown", "unknown") = some 30 ∧
      GoMap.get? (Exporter.Scrape librariesClient sampleClock earlierSink).libraryListeningSeconds
          ("old", "Old library") = none :=
  have hsafe : ∀ s ∈ librariesClient.Sessions.all, included s = true →
      barSafe s.LibraryID = true := by decide!
  have h := library_series_amended librariesClient sampleClock earlierSink (by decide!) hsafe
  ⟨by decide!, hsafe, (h ("L1", "Fiction")).1.trans (by decide!),
    (h ("L2", "L2")).2.trans (by decide!), (h ("unknown", "unknown")).1.trans (by decide!),
    (h ("old", "Old library")).1.trans (by decide!)⟩

theorem username_eq_userKeySpec (s : Session) : username s = userKeySpec s := by
  unfold username userKeySpec
  cases hu : s.User with
  | none => by_cases h : s.UserID = "" <;> simp [h]
  | some u =>
    by_cases h1 : u.Username = ""
    · by_cases h : s.UserID = "" <;> simp [h1, h]
    · simp [h1]

/-- C9: the user-key is the username of the user block when the block is
present and the username non-empty, otherwise `userId` when non-empty,
otherwise `"unknown"`.  The loop body adds the `timeListening` of an included
session to the seconds rollup and 1 to the count rollup under that key, and
after a cycle whose sessions fetch succeeds the per-user series show under each
key the sum of `timeListening`, respectively the number, of the included
sessions with that key, those under `"unknown"` among them. -/
theorem user_key_rollup (c : Client) (clock : Clock) (e : Exporter)
    (h : c.Sessions.err = none) :
    (∀ (libNames : GoMap String String) (r : Rollups) (s : Session), included s = true →
        (aggregateStep libNames r s).userListening
            = r.userListening.add (userKeySpec s) s.TimeListening ∧
          (aggregateStep libNames r s).userSessions
            = r.userSessions.add (userKeySpec s) 1) ∧
      ∀ k, GoMap.get? (Exporter.Scrape c clock e).userListeningSeconds k
            = bucketSeconds userKeySpec c.Sessions.all k ∧
          GoMap.get? (Exporter.Scrape c clock e).userSessionsTotal k
            = bucketCount userKeySpec c.Sessions.all k := by
  constructor
  · intro libNames r s hi
    have hpos : ¬ s.TimeListening ≤ 0 := (included_eq_true_iff s).1 hi
    simp [aggregateStep, hpos, username_eq_userKeySpec]
  · intro k
    have hs := Scrape_series c clock e h
    simp only [Exporter.dimensions, Prod.mk.injEq] at hs
    obtain ⟨h1, h2, _, _, _, _, _⟩ := hs
    have hk : ∀ s ∈ c.Sessions.all, included s = true → username s = userKeySpec s :=
      fun s _ _ => username_eq_userKeySpec s
    rw [h1, h2, accumulate_congr _ _ _ _ _ hk, accumulate_congr _ _ _ _ _ hk]
    exact ⟨get?_accumulate_seconds _ _ k, get?_accumulate_count _ _ k⟩

/-- C9, at a session without user block and `userId` and a session whose user
block has an empty username: both are aggregated under `"unknown"`. -/
theorem user_key_rollup_witness :
    anonymousClient.Sessions.err = none ∧
      userKeySpec (anonymousSession 5) = "unknown" ∧
      GoMap.get? (Exporter.Scrape anonymousClient sampleClock earlierSink).userListeningSeconds
          "unknown" = some 12 ∧
      GoMap.get? (Exporter.Scrape anonymousClient sampleClock earlierSink).userSessionsTotal
          "unknown" = some 2 ∧
      (Exporter.Scrape anonymousClient sampleClock earlierSink).userListeningSeconds
        = [("unknown", 12), ("u-42", 11), ("alice", 120)] :=
  have h := (user_key_rollup anonymousClient sampleClock earlierSink (by decide!)).2 "unknown"
  ⟨by decide!, by decide, h.1.trans (by decide!), h.2.trans (by decide!), by decide!⟩

/-- C10, as stated, fails: when the sessions fetch fails, the series published
by an earlier cycle stay in the sink, so the series after the cycle depend on
the sink's content before it. -/
theorem stale_series_counterexample :
    sessionsDownClient.Sessions.all = [] ∧
      sessionsDownClient.Sessions.err = some "connection refused" ∧
      (Exporter.Scrape sessionsDownClient sampleClock earlierSink).userListeningSeconds
        = [("carol", 5)] ∧
      (Exporter.Scrape sessionsDownClient sampleClock emptySink).userListeningSeconds = [] ∧
      ¬ ((Exporter.Scrape sessionsDownClient sampleClock earlierSink).dimensions
          = (Exporter.Scrape sessionsDownClient sampleClock emptySink).dimensions) := by
  refine ⟨by decide!, by decide!, by decide!, by decide!, fun h => ?_⟩
  have h1 : (Exporter.Scrape sessionsDownClient sampleClock earlierSink).userListeningSeconds
      ≠ (Exporter.Scrape sessionsDownClient sampleClock emptySink).userListeningSeconds := by
    decide!
  exact h1 (congrArg Prod.fst h)

/-- C10, amended: after a cycle whose sessions fetch succeeds, whatever the
outcome of its other fetches and whatever the sink held before, each of the
seven per-dimension series consists of the entries of the rollup computed in
this cycle, under the labels they are published with, and of nothing else; so
the seven series do not depend on the sink's content before the cycle. -/
theorem series_replaced_on_success (c : Client) (clock : Clock) (e e' : Exporter)
    (h : c.Sessions.err = none) :
    (Exporter.Scrape c clock e).dimensions =
        ((aggregate c.Sessions.all c.libNames).userListening,
          (aggregate c.Sessions.all c.libNames).userSessions,
          relabel (fun key => splitOnce key "||")
            (aggregate c.Sessions.all c.libNames).libraryListening,
          relabel (fun key => splitOnce key "||")
            (aggregate c.Sessions.all c.libNames).librarySessions,
          (aggregate c.Sessions.all c.libNames).bookListening,
          (aggregate c.Sessions.all c.libNames).deviceListening,
          (aggregate c.Sessions.all c.libNames).weekdayListening) ∧
      (Exporter.Scrape c clock e).dimensions = (Exporter.Scrape c clock e').dimensions := by
  constructor
  · rw [(Scrape_dimensions_ok c clock e h).1]
    have hrel : ∀ val : Session → ℚ,
        publish (fun key => splitOnce key "||")
            (accumulate (libraryKey c.libNames) val c.Sessions.all []) []
          = relabel (fun key => splitOnce key "||")
            (accumulate (libraryKey c.libNames) val c.Sessions.all []) := by
      intro val
      have hP := keys_accumulate_of (fun k => ∃ a b : String, k = a ++ "||" ++ b)
        (libraryKey c.libNames) val c.Sessions.all (libraryKey_form c.libNames c.Sessions.all)
      exact publish_eq_relabel _ _
        (nodup_keys_accumulate _ val c.Sessions.all [] (by simp [GoMap.keys]))
        (fun a ha b hb hab => splitOnce_injOn "||" a b (hP a ha) (hP b hb) hab)
    simp only [Exporter.dimensions, publishRollups, aggregate_eq, publish_id_accumulate, hrel]
  · rw [Scrape_series c clock e h, Scrape_series c clock e' h]

/-- C10, amended, at the example of the specification run on a sink that holds
an earlier snapshot: the earlier labels are gone. -/
theorem series_replaced_on_success_witness :
    aliceBobClient.Sessions.err = none ∧
      (Exporter.Scrape aliceBobClient sampleClock earlierSink).dimensions
        = (Exporter.Scrape aliceBobClient sampleClock emptySink).dimensions ∧
      (Exporter.Scrape aliceBobClient sampleClock earlierSink).bookListeningSeconds
        = [("unknown", 120)] ∧
      (Exporter.Scrape aliceBobClient sampleClock earlierSink).deviceListeningSeconds
        = [(("unknown", "unknown"), 120)] :=
  ⟨by decide!,
    (series_replaced_on_success aliceBobClient sampleClock earlierSink emptySink
      (by decide!)).2,
    by decide!, by decide!⟩

end AbsExporter
